import Mathlib

/-!
Verification of the benchmark aggregation engine of `explainaboard_web`.

This file gives a shallow embedding of the core aggregation code
(`backend/src/impl/benchmark_utils.py` and the benchmark composer loop of
`backend/src/impl/default_controllers_impl.py`) and proves properties of it.

Conventions of the embedding:
* Python floats are modelled by exact rationals (`ℚ`); the claims under
  consideration only copy, multiply and average score values, never rely on
  rounding behaviour.
* Python dicts are modelled by association lists with overwrite-insert
  (`dictInsert`) preserving the position of an overwritten key, exactly like
  Python's insertion-ordered dicts.
* A raised `KeyError` (a subclass of Python's `LookupError`) is modelled by
  `PyErr.keyError`, a raised `ValueError` by `PyErr.valueError`; fallible
  code returns `Except PyErr _`.
-/

namespace Spec2Proof

/-- A Python value appearing in a DataFrame cell or a config field: a string,
a number (floats modelled by rationals), or `None`. -/
inductive Val where
  | vStr (s : String)
  | vNum (q : ℚ)
  | vNone
deriving DecidableEq

/-- Python truthiness of a cell value: non-empty strings and non-zero numbers
are truthy, `None` is falsy. -/
def Val.truthy : Val → Bool
  | .vStr s => if s = "" then false else true
  | .vNum q => if q = 0 then false else true
  | .vNone => false

/-- Decimal digits of the fractional part `r / d`, at most `fuel` digits;
mirrors how Python prints the terminating decimal floats used in labels. -/
def fracDigits : Nat → Nat → Nat → String
  | _, _, 0 => ""
  | r, d, fuel + 1 =>
    if r = 0 then "" else
      toString (r * 10 / d) ++ fracDigits (r * 10 % d) d fuel

/-- Python `str()` of a cell value, as used by f-string formatting in
`BenchmarkUtils._col_name`. Numbers print with a decimal point, as Python
prints floats with terminating decimal expansions. -/
def Val.pyStr : Val → String
  | .vStr s => s
  | .vNone => "None"
  | .vNum q =>
    let sign := if q.num < 0 then "-" else ""
    let n := q.num.natAbs
    if n % q.den = 0 then sign ++ toString (n / q.den) ++ ".0"
    else sign ++ toString (n / q.den) ++ "." ++ fracDigits (n % q.den) q.den 17

/-- Lookup in an association list modelling a Python dict. -/
def dictLookup {α β : Type} [DecidableEq α] : List (α × β) → α → Option β
  | [], _ => none
  | (k, v) :: rest, a => if a = k then some v else dictLookup rest a

/-- Python dict assignment `d[k] = v`: overwrites an existing key in place
(keeping its position) or appends a new key at the end. -/
def dictInsert {α β : Type} [DecidableEq α] : List (α × β) → α → β → List (α × β)
  | [], k, v => [(k, v)]
  | (k', v') :: rest, k, v =>
    if k = k' then (k, v) :: rest else (k', v') :: dictInsert rest k v

/-- Modelled Python exceptions raised by the aggregation code.
`keyError` stands for `KeyError`, which is a subclass of `LookupError`. -/
inductive PyErr where
  | keyError
  | valueError
deriving DecidableEq

/-- A benchmark metric dict: `{"name": ..., "weight"?: ..., "default"?: ...}`.
Absent keys are `none`. -/
structure BenchmarkMetric where
  name : String
  weight : Option ℚ := none
  default : Option ℚ := none
deriving DecidableEq

/-- One entry of `config.datasets`, a Python dict. Optional fields model
optional dict keys. Note that the source reads both the keys
`sub_dataset_name` / `dataset_split` (in `load_sys_infos`, in the DataFrame
columns and in the metrics error message) and the keys `sub_dataset` /
`split` (when building the identity index in
`generate_dataframe_from_sys_infos`), so both families are modelled.
Further descriptive dict entries live in `extra` (string keys, assumed
distinct as Python dict keys are); the `metrics` key is modelled by the
typed field and excluded from the cell-valued pairs, it is never read as a
DataFrame cell. -/
structure Dataset where
  dataset_name : String
  sub_dataset_name : Option String := none
  dataset_split : Option String := none
  sub_dataset : Option String := none
  split : Option String := none
  metrics : Option (List BenchmarkMetric) := none
  extra : List (String × Val) := []
deriving DecidableEq

/-- The cell-valued key/value pairs of the dataset dict, in insertion order;
this is what `dict(dataset)` and `dataset.keys()` see (minus the `metrics`
key, which is excluded via `exclude_keys` for columns and never read as a
cell). -/
def datasetPairs (d : Dataset) : List (String × Val) :=
  [("dataset_name", Val.vStr d.dataset_name)]
    ++ (match d.sub_dataset_name with
        | some s => [("sub_dataset_name", Val.vStr s)]
        | none => [])
    ++ (match d.dataset_split with
        | some s => [("dataset_split", Val.vStr s)]
        | none => [])
    ++ (match d.sub_dataset with
        | some s => [("sub_dataset", Val.vStr s)]
        | none => [])
    ++ (match d.split with
        | some s => [("split", Val.vStr s)]
        | none => [])
    ++ d.extra

/-- One view config: a name and an ordered operation list. -/
structure Operation where
  op : String
  other : Option String := none
deriving DecidableEq

/-- A named view: an ordered pipeline of operations. -/
structure BenchmarkViewConfig where
  name : String
  operations : List Operation
deriving DecidableEq

/-- The benchmark configuration (the parts the aggregation engine reads). -/
structure BenchmarkConfig where
  datasets : List Dataset
  metrics : Option (List BenchmarkMetric) := none
  views : List BenchmarkViewConfig := []
deriving DecidableEq

/-- A raw per-system evaluation info dict, with its nested
`results.overall` map from metric name to the performance value. The
performance dicts `{"value": v}` are modelled by their value; such a dict is
non-empty and hence always truthy in Python. -/
structure SysInfo where
  system_name : String
  dataset_name : String
  sub_dataset_name : Option String
  dataset_split : String
  results_overall : List (String × ℚ)
deriving DecidableEq

/-- The key under which the builder indexes a config dataset:
`(x["dataset_name"], x.get("sub_dataset", None), x.get("split", "test"))`. -/
def idKey (d : Dataset) : String × Option String × String :=
  (d.dataset_name, d.sub_dataset, d.split.getD "test")

/-- The identity tuple of a raw system info:
`(sys["dataset_name"], sys["sub_dataset_name"], sys["dataset_split"])`. -/
def sysKey (s : SysInfo) : String × Option String × String :=
  (s.dataset_name, s.sub_dataset_name, s.dataset_split)

/-- Modelled from the spec: the DatasetSpec identity key of a config entry,
`(dataset_name, sub_dataset_name, dataset_split defaulting to "test")`, as
section 3 of the spec defines it. Used only to compare the spec's notion of
dataset identity with the key the code actually builds (`idKey`). -/
def specIdentity (d : Dataset) : String × Option String × String :=
  (d.dataset_name, d.sub_dataset_name, d.dataset_split.getD "test")

/-- The dataset identity index `dataset_to_id`: a dict comprehension over
`enumerate(config.datasets)`; duplicate keys are silently overwritten by the
later entry, exactly as in a Python dict comprehension. -/
def datasetToId (ds : List Dataset) :
    List ((String × Option String × String) × Nat) :=
  (List.enum ds).foldl (fun acc p => dictInsert acc (idKey p.2) p.1) []

/-- One step of grouping raw infos by system name
(`system_dataset_results` in the source): missing names are initialised with
`[None] * len(config.datasets)`, then the slot at the resolved dataset index
is assigned. An unresolvable identity raises `KeyError`. -/
def buildSlots (idx : List ((String × Option String × String) × Nat))
    (n : Nat) :
    List SysInfo → List (String × List (Option SysInfo)) →
    Except PyErr (List (String × List (Option SysInfo)))
  | [], acc => .ok acc
  | s :: rest, acc =>
    let acc1 :=
      if (dictLookup acc s.system_name).isSome then acc
      else acc ++ [(s.system_name, List.replicate n none)]
    match dictLookup idx (sysKey s) with
    | none => .error .keyError
    | some i =>
      buildSlots idx n rest
        (acc1.map (fun e =>
          if e.1 = s.system_name then (e.1, e.2.set i (some s)) else e))

/-- Accumulate DataFrame column names: each dataset key not already a column
and not in `exclude_keys = {"metrics"}` is appended. -/
def addCols (acc : List String) : List (String × Val) → List String
  | [] => acc
  | (k, _) :: rest =>
    addCols (if k ∈ acc ∨ k = "metrics" then acc else acc ++ [k]) rest

/-- The columns of `df_input` before the three trailing assignments: the
four fixed identity columns, then every further dataset key in insertion
order. -/
def dfColsBase (cfg : BenchmarkConfig) : List String :=
  cfg.datasets.foldl (fun acc d => addCols acc (datasetPairs d))
    ["system_name", "dataset_name", "sub_dataset_name", "dataset_split"]

/-- The columns of the builder's DataFrame (the keys of `df_input`, in
insertion order): the base columns, then `metric`, `metric_weight`, `score`
(pre-existing keys are only re-assigned, keeping their position). -/
def dfCols (cfg : BenchmarkConfig) : List String :=
  dfColsBase cfg ++ (["metric", "metric_weight", "score"].filter
    (fun k => !(k ∈ dfColsBase cfg : Bool)))

/-- The effective metric list of a dataset:
`dataset.get("metrics", config.metrics)`. -/
def effMetrics (cfg : BenchmarkConfig) (d : Dataset) :
    Option (List BenchmarkMetric) :=
  match d.metrics with
  | some ms => some ms
  | none => cfg.metrics

/-- The row emitted for one `(system, dataset, metric)` triple: the
`column_dict` starts as `dict(dataset)`, gets `system_name`, `metric`,
`metric_weight` and `score` assigned, and is then read back through the
DataFrame columns (`column_dict.get(df_key)`, `None` when absent). -/
def metricRow (cfg : BenchmarkConfig) (d : Dataset) (name : String)
    (ms : List BenchmarkMetric) (m : BenchmarkMetric)
    (slot : Option SysInfo) : List Val :=
  (dfCols cfg).map (fun k =>
    (dictLookup
      (dictInsert
        (dictInsert
          (dictInsert
            (dictInsert (datasetPairs d) "system_name" (Val.vStr name))
            "metric" (Val.vStr m.name))
          "metric_weight" (Val.vNum (m.weight.getD (1 / (ms.length : ℚ)))))
        "score"
        (Val.vNum (match slot with
          | some s =>
            match dictLookup s.results_overall m.name with
            | some v => v
            | none => m.default.getD 0
          | none => m.default.getD 0)))
      k).getD Val.vNone)

/-- The rows emitted for one `(system, dataset-slot)` pair: the effective
metric list must resolve (else `ValueError`), then one row per metric. -/
def rowsForDataset (cfg : BenchmarkConfig) (name : String) (d : Dataset)
    (slot : Option SysInfo) : Except PyErr (List (List Val)) :=
  match effMetrics cfg d with
  | none => .error .valueError
  | some ms => .ok (ms.map (fun m => metricRow cfg d name ms m slot))

/-- The rows for one system: its slots zipped with `config.datasets`. -/
def rowsForSystem (cfg : BenchmarkConfig) (name : String) :
    List (Dataset × Option SysInfo) → Except PyErr (List (List Val))
  | [] => .ok []
  | (d, slot) :: rest =>
    match rowsForDataset cfg name d slot with
    | .error e => .error e
    | .ok rs =>
      match rowsForSystem cfg name rest with
      | .error e => .error e
      | .ok rest' => .ok (rs ++ rest')

/-- All rows, iterating `system_dataset_results` in insertion order. -/
def makeRows (cfg : BenchmarkConfig) :
    List (String × List (Option SysInfo)) → Except PyErr (List (List Val))
  | [] => .ok []
  | (name, slots) :: rest =>
    match rowsForSystem cfg name (cfg.datasets.zip slots) with
    | .error e => .error e
    | .ok rs =>
      match makeRows cfg rest with
      | .error e => .error e
      | .ok rest' => .ok (rs ++ rest')

/-- A pandas DataFrame: an optional named index (set by `groupby`, `none`
meaning the default range index), the index values, the column names, and
the rows (cells aligned with `cols`). -/
structure DataFrame where
  indexName : Option String
  indexVals : List Val
  cols : List String
  rows : List (List Val)
deriving DecidableEq

/-- Cell access by column name in a row (first matching column). -/
def dfCell (cols : List String) (row : List Val) (c : String) : Option Val :=
  dictLookup (cols.zip row) c

/-- Cell access with pandas `Series.__getitem__` semantics collapsed to a
value; a missing column reads as `None` (only ever used on present
columns). -/
def entryGet (cols : List String) (row : List Val) (c : String) : Val :=
  (dfCell cols row c).getD Val.vNone

/-- `BenchmarkUtils.generate_dataframe_from_sys_infos`: build the identity
index, group the raw infos into per-system slots, and emit one row per
`(system, dataset, metric)` triple. -/
def generateDataframe (cfg : BenchmarkConfig) (systems : List SysInfo) :
    Except PyErr DataFrame :=
  match buildSlots (datasetToId cfg.datasets) cfg.datasets.length systems [] with
  | .error e => .error e
  | .ok entries =>
    match makeRows cfg entries with
    | .error e => .error e
    | .ok rows =>
      .ok { indexName := none
            indexVals := (List.range rows.length).map (fun i => Val.vNum i)
            cols := dfCols cfg
            rows := rows }

/-! ## Table Renderer (`BenchmarkUtils._col_name`, `dataframe_to_table`) -/

/-- Iteration over a Python `set(...)` built from a list: each distinct value
once. Set iteration order is implementation-defined in the source (the spec
says so explicitly); the model fixes first-occurrence order, and no claim
depends on the order. -/
def pySetAux {α : Type} [DecidableEq α] : List α → List α → List α
  | _, [] => []
  | seen, a :: l =>
    if a ∈ seen then pySetAux seen l else a :: pySetAux (a :: seen) l

/-- The distinct values of a list, in first-occurrence order. -/
def pySet {α : Type} [DecidableEq α] (l : List α) : List α := pySetAux [] l

/-- The index of a value in a list: the model of the dict
`{v: i for i, v in enumerate(set(...))}`. -/
def idxOf {α : Type} [DecidableEq α] (a : α) : List α → Nat
  | [] => 0
  | b :: l => if a = b then 0 else idxOf a l + 1

/-- `BenchmarkUtils._col_name`: the ", "-joined `key=value` pairs over the
descriptor columns whose cell is truthy, in column order. -/
def colName (elems : List String) (cols : List String) (row : List Val) :
    String :=
  String.intercalate ", "
    ((elems.filter (fun e => (entryGet cols row e).truthy)).map
      (fun e => e ++ "=" ++ (entryGet cols row e).pyStr))

/-- The numeric content of a cell, as numpy coerces it into the float score
matrix. All score cells of pipeline-produced tables are numeric; a
non-numeric cell would raise inside numpy and is not modelled. -/
def valAsNum : Val → ℚ
  | .vNum q => q
  | _ => 0

/-- Update entry `(i, j)` of a dense matrix (numpy `scores[row][col] = val`). -/
def set2d (m : List (List ℚ)) (i j : Nat) (q : ℚ) : List (List ℚ) :=
  m.set i ((m.getD i []).set j q)

/-- Read entry `(i, j)` of a dense matrix. -/
def get2d (m : List (List ℚ)) (i j : Nat) : ℚ := (m.getD i []).getD j 0

/-- The rendered leaderboard table. -/
structure BenchmarkTable where
  system_names : List Val
  column_names : List String
  scores : List (List ℚ)
deriving DecidableEq

/-- `elem_names`: every column except `score` and `system_name`. -/
def rendererElems (df : DataFrame) : List String :=
  df.cols.filter (fun c => if c = "score" ∨ c = "system_name" then false else true)

/-- The deduplicated system names (`set(input_df["system_name"])`, the keys
of `system_map`). -/
def rendererSystems (df : DataFrame) : List Val :=
  pySet (df.rows.map (fun r => entryGet df.cols r "system_name"))

/-- The deduplicated composite labels (`set(row_col_names)`, the keys of
`column_map`). -/
def rendererCols (df : DataFrame) : List String :=
  pySet (df.rows.map (fun r => colName (rendererElems df) df.cols r))

/-- `BenchmarkUtils.dataframe_to_table`: deduplicate system names and
composite column labels into index maps, start from `np.zeros`, then fill
the matrix by a pass over the rows (the source zips `iterrows()` with the
precomputed label list; recomputing the label of each row is extensionally
the same pass). -/
def dataframeToTable (df : DataFrame) : BenchmarkTable :=
  { system_names := rendererSystems df
    column_names := rendererCols df
    scores := df.rows.foldl (fun m r =>
      set2d m (idxOf (entryGet df.cols r "system_name") (rendererSystems df))
        (idxOf (colName (rendererElems df) df.cols r) (rendererCols df))
        (valAsNum (entryGet df.cols r "score")))
      (List.replicate (rendererSystems df).length
        (List.replicate (rendererCols df).length (0 : ℚ))) }

/-! ## View Aggregator (`BenchmarkUtils.aggregate_view`) -/

/-- Whether a cell is numeric. -/
def isNumV : Val → Bool
  | .vNum _ => true
  | _ => false

/-- The grouping keys of `groupby(["system_name"])`: the `system_name`
column if present, else the index level of that name (as after a previous
grouping); otherwise pandas raises `KeyError`. -/
def groupKeys (df : DataFrame) : Except PyErr (List Val) :=
  if "system_name" ∈ df.cols then
    .ok (df.rows.map (fun r => entryGet df.cols r "system_name"))
  else if df.indexName = some "system_name" then .ok df.indexVals
  else .error .keyError

/-- The columns that survive a grouped aggregation: pandas drops the
grouping column and every non-numeric (nuisance) column. A column is
numeric when every cell in it is. -/
def numericCols (df : DataFrame) : List String :=
  df.cols.filter (fun c =>
    (if c = "system_name" then false else true)
      && df.rows.all (fun r => isNumV (entryGet df.cols r c)))

/-- A grouped aggregation (`groupby(["system_name"]).mean()` / `.sum()`):
group the rows by key, combine each numeric column per group, and index the
result by `system_name`. -/
def groupAgg (combine : List ℚ → ℚ) (df : DataFrame) :
    Except PyErr DataFrame :=
  match groupKeys df with
  | .error e => .error e
  | .ok keys =>
    let distinct := pySet keys
    let cs := numericCols df
    .ok { indexName := some "system_name"
          indexVals := distinct
          cols := cs
          rows := distinct.map (fun k =>
            let members := ((keys.zip df.rows).filter
              (fun p => if p.1 = k then true else false)).map Prod.snd
            cs.map (fun c =>
              Val.vNum (combine (members.map
                (fun r => valAsNum (entryGet df.cols r c)))))) }

/-- `groupby(["system_name"]).mean()` (rational division models float mean;
every group is non-empty, so no division by zero arises). -/
def groupMean (df : DataFrame) : Except PyErr DataFrame :=
  groupAgg (fun l => l.sum / (l.length : ℚ)) df

/-- `groupby(["system_name"]).sum()`. -/
def groupSum (df : DataFrame) : Except PyErr DataFrame :=
  groupAgg (fun l => l.sum) df

/-- Assign column `c` of a row to `v` (`output_df["score"] = ...`). -/
def setCol (cols : List String) (row : List Val) (c : String) (v : Val) :
    List Val :=
  (cols.zip row).map (fun p => if p.1 = c then v else p.2)

/-- `output_df["score"] = output_df["score"] * output_df[operation["other"]]`:
reading a column absent from the frame raises `KeyError` (pandas column
access; `KeyError` is a `LookupError`), with `"score"` read first. The
row-wise product coerces cells through `valAsNum`; in the pipeline both
columns are numeric. A missing `"other"` key in the operation dict also
raises `KeyError`. -/
def multiplyScore (df : DataFrame) (other : Option String) :
    Except PyErr DataFrame :=
  match other with
  | none => .error .keyError
  | some c =>
    if "score" ∈ df.cols then
      if c ∈ df.cols then
        .ok { df with rows := df.rows.map (fun r =>
          setCol df.cols r "score"
            (Val.vNum (valAsNum (entryGet df.cols r "score")
              * valAsNum (entryGet df.cols r c)))) }
      else .error .keyError
    else .error .keyError

/-- The first `if` of the loop body: `operation["op"] == "mean"`. -/
def app1 (o : Operation) (df : DataFrame) : Except PyErr DataFrame :=
  if o.op = "mean" then groupMean df else .ok df

/-- The second `if` of the loop body: `operation["op"] == "multiply"`. -/
def app2 (o : Operation) (df : DataFrame) : Except PyErr DataFrame :=
  if o.op = "multiply" then multiplyScore df o.other else .ok df

/-- The third `if` of the loop body: `operation["op"] == "sum"`. -/
def app3 (o : Operation) (df : DataFrame) : Except PyErr DataFrame :=
  if o.op = "sum" then groupSum df else .ok df

/-- The body of the operation loop in `aggregate_view`: the three sequential
`if` statements on `operation["op"]` (mutually exclusive since `op` is one
string), a raised exception propagating out; an unrecognised op is a
no-op. -/
def applyOperation (df : DataFrame) (o : Operation) :
    Except PyErr DataFrame :=
  match app1 o df with
  | .error e => .error e
  | .ok df1 =>
    match app2 o df1 with
    | .error e => .error e
    | .ok df2 => app3 o df2

/-- The operation loop of `aggregate_view`. -/
def runOperations (df : DataFrame) : List Operation → Except PyErr DataFrame
  | [] => .ok df
  | o :: rest =>
    match applyOperation df o with
    | .error e => .error e
    | .ok df2 => runOperations df2 rest

/-- `output_df.reset_index(inplace=True)`: move the index into a leading
column (named `"index"` for the default range index) and install a fresh
range index. -/
def resetIndex (df : DataFrame) : DataFrame :=
  { indexName := none
    indexVals := (List.range df.rows.length).map (fun i => Val.vNum i)
    cols := (df.indexName.getD "index") :: df.cols
    rows := (df.indexVals.zip df.rows).map (fun p => p.1 :: p.2) }

/-- `BenchmarkUtils.aggregate_view` as a pure value transformer: the
`.copy()` is the identity on values; the operations run in order and the
result gets its index reset. -/
def aggregateView (input_df : DataFrame) (view : BenchmarkViewConfig) :
    Except PyErr DataFrame :=
  match runOperations input_df view.operations with
  | .error e => .error e
  | .ok out => .ok (resetIndex out)

/-! ## Heap model of `aggregate_view` / `generate_view_dataframes`

To state that `aggregate_view` never mutates its argument, Python objects
are modelled explicitly: a heap is a list of DataFrame objects, a reference
is an index into it, allocation appends, and in-place statements
(`output_df["score"] = ...`, `reset_index(inplace=True)`) update the heap at
the reference they are applied to. `output_df = input_df.copy()` allocates a
fresh object holding the value of the input object; rebinding `output_df`
to a `groupby` result allocates a fresh object as well. -/

/-- The empty frame, the out-of-range default of the heap model. -/
def emptyDF : DataFrame := { indexName := none, indexVals := [], cols := [], rows := [] }

/-- Dereference a heap reference. -/
def hGet : List DataFrame → Nat → DataFrame
  | [], _ => emptyDF
  | d :: _, 0 => d
  | _ :: h, n + 1 => hGet h n

/-- Exception-propagating sequencing on the heap: a raised exception stops
the iteration, leaving the heap as it stands. -/
def bindH (x : List DataFrame × Except PyErr Nat)
    (f : List DataFrame → Nat → List DataFrame × Except PyErr Nat) :
    List DataFrame × Except PyErr Nat :=
  match x with
  | (h, .error e) => (h, .error e)
  | (h, .ok r) => f h r

/-- The first `if` on the heap: a `mean` rebinds `output_df` to a freshly
allocated grouped frame. -/
def step1 (o : Operation) (h : List DataFrame) (r : Nat) :
    List DataFrame × Except PyErr Nat :=
  if o.op = "mean" then
    match groupMean (hGet h r) with
    | .ok d => (h ++ [d], Except.ok h.length)
    | .error e => (h, Except.error e)
  else (h, Except.ok r)

/-- The second `if` on the heap: a `multiply` assigns the score column in
place into the object `output_df` is bound to. -/
def step2 (o : Operation) (h : List DataFrame) (r : Nat) :
    List DataFrame × Except PyErr Nat :=
  if o.op = "multiply" then
    match multiplyScore (hGet h r) o.other with
    | .ok d => (h.set r d, Except.ok r)
    | .error e => (h, Except.error e)
  else (h, Except.ok r)

/-- The third `if` on the heap: a `sum` rebinds to a fresh grouped frame. -/
def step3 (o : Operation) (h : List DataFrame) (r : Nat) :
    List DataFrame × Except PyErr Nat :=
  if o.op = "sum" then
    match groupSum (hGet h r) with
    | .ok d => (h ++ [d], Except.ok h.length)
    | .error e => (h, Except.error e)
  else (h, Except.ok r)

/-- One iteration of the operation loop on the heap: the three sequential
`if` statements. -/
def stepH (o : Operation) (h : List DataFrame) (r : Nat) :
    List DataFrame × Except PyErr Nat :=
  bindH (step1 o h r) (fun h1 r1 => bindH (step2 o h1 r1) (step3 o))

/-- The operation loop of `aggregate_view` on the heap. -/
def runOpsH : List Operation → List DataFrame → Nat →
    List DataFrame × Except PyErr Nat
  | [], h, r => (h, .ok r)
  | o :: rest, h, r =>
    match stepH o h r with
    | (h2, .error e) => (h2, .error e)
    | (h2, .ok r2) => runOpsH rest h2 r2

/-- `aggregate_view` on the heap: copy the input object, run the loop, then
reset the index in place on the output object. -/
def aggregateViewH (h : List DataFrame) (r : Nat)
    (view : BenchmarkViewConfig) : List DataFrame × Except PyErr Nat :=
  match runOpsH view.operations (h ++ [hGet h r]) h.length with
  | (h2, .error e) => (h2, .error e)
  | (h2, .ok r2) => (h2.set r2 (resetIndex (hGet h2 r2)), .ok r2)

/-- The view loop of `generate_view_dataframes`: each view is aggregated
from the `orig` reference and stored into the result dict (overwriting an
existing name, as Python dict assignment does). -/
def runViewsH : List BenchmarkViewConfig → List DataFrame → Nat →
    List (String × Nat) →
    Except PyErr (List DataFrame × List (String × Nat))
  | [], h, _, acc => .ok (h, acc)
  | v :: rest, h, orig, acc =>
    match aggregateViewH h orig v with
    | (_, .error e) => .error e
    | (h2, .ok r) => runViewsH rest h2 orig (dictInsert acc v.name r)

/-- `BenchmarkUtils.generate_view_dataframes`: build the `orig` table, seed
the result dict with it, then aggregate every configured view from the
`orig` object. -/
def generateViewDataframesH (cfg : BenchmarkConfig)
    (systems : List SysInfo) :
    Except PyErr (List DataFrame × List (String × Nat)) :=
  match generateDataframe cfg systems with
  | .error e => .error e
  | .ok d => runViewsH cfg.views [d] 0 [("orig", 0)]

/-! ## Benchmark Composer (`benchmark_benchmark_id_get`) -/

/-- One record config of the benchmark (`bm_config.record_configs`). -/
structure RecordConfig where
  dataset_name : String
  sub_dataset_name : Option String := none
  dataset_split : String := "test"
  metrics : List String
  metric_weights : List (String × ℚ) := []
  op_metric : String := ""
deriving DecidableEq

/-- The four weight tables of `bm_config.aggregation_configs`
(`aggregation_configs[dim]["weights"]`). -/
structure AggregationConfigs where
  dataset_weights : List (String × ℚ) := []
  task_weights : List (String × ℚ) := []
  target_language_weights : List (String × ℚ) := []
  source_language_weights : List (String × ℚ) := []
deriving DecidableEq

/-- The fields of a fetched system's info dict that the composer reads:
the reported metric names (`metric_configs[*]["name"]`), the dimension
values, and the `results.overall` map from metric name to value. -/
structure ComposerSysInfo where
  system_name : String
  metric_config_names : List String
  task_name : String
  target_language : String
  source_language : String
  results_overall : List (String × ℚ)
deriving DecidableEq

/-- `list(set(sys_metrics) & set(record.metrics))`: the distinct reported
metric names that the record requires (set order modelled as
first-occurrence order; only the key set matters downstream). -/
def commonMetrics (rc : RecordConfig) (s : ComposerSysInfo) : List String :=
  pySet (s.metric_config_names.filter (fun m => if m ∈ rc.metrics then true else false))

/-- The weight lookup pattern
`1.0 if v not in weights else weights[v]`. -/
def resolveWeight (table : List (String × ℚ)) (v : String) : ℚ :=
  match dictLookup table v with
  | some w => w
  | none => 1

/-- A finalized leaderboard record, with the populated fields. -/
structure LeaderboardRecord where
  sys : ComposerSysInfo
  metrics : List (String × ℚ)
  metric_weights : List (String × ℚ)
  op_metric : String
  dataset_weight : ℚ
  task_weight : ℚ
  target_language_weight : ℚ
  source_language_weight : ℚ
deriving DecidableEq

/-- The dict comprehension
`{metric: sys_info["results"]["overall"][metric]["value"] for metric in common_metrics}`;
a metric reported in `metric_configs` but absent from `results.overall`
raises `KeyError`. -/
def lookupAll (res : List (String × ℚ)) :
    List String → Except PyErr (List (String × ℚ))
  | [] => .ok []
  | m :: rest =>
    match dictLookup res m with
    | none => .error .keyError
    | some v =>
      match lookupAll res rest with
      | .error e => .error e
      | .ok l => .ok ((m, v) :: l)

/-- The per-system body of the composer loop: skip the system when the
metric intersection is empty, else build its leaderboard record with the
matched metrics and the four resolved weights. -/
def processSystem (agg : AggregationConfigs) (rc : RecordConfig)
    (s : ComposerSysInfo) : Except PyErr (Option LeaderboardRecord) :=
  let common := commonMetrics rc s
  if common.length = 0 then .ok none
  else
    match lookupAll s.results_overall common with
    | .error e => .error e
    | .ok ms =>
      .ok (some
        { sys := s
          metrics := ms
          metric_weights := rc.metric_weights
          op_metric := rc.op_metric
          dataset_weight := resolveWeight agg.dataset_weights rc.dataset_name
          task_weight := resolveWeight agg.task_weights s.task_name
          target_language_weight :=
            resolveWeight agg.target_language_weights s.target_language
          source_language_weight :=
            resolveWeight agg.source_language_weights s.source_language })

/-- The records appended for one record config, over the fetched systems in
order. -/
def recordLeaderboard (agg : AggregationConfigs) (rc : RecordConfig) :
    List ComposerSysInfo → Except PyErr (List LeaderboardRecord)
  | [] => .ok []
  | s :: rest =>
    match processSystem agg rc s with
    | .error e => .error e
    | .ok none => recordLeaderboard agg rc rest
    | .ok (some r) =>
      match recordLeaderboard agg rc rest with
      | .error e => .error e
      | .ok l => .ok (r :: l)

/-! ## Accessors used by theorem statements -/

deriving instance DecidableEq for Except

/-- Whether a fallible computation succeeded (no exception raised). -/
def exceptIsOk : Except PyErr DataFrame → Bool
  | .ok _ => true
  | .error _ => false

/-- The truthy-restricted descriptor projection of a row: the cell value at
a column when truthy, `none` otherwise. Two rows "have identical non-empty
descriptor values" exactly when their projections agree on every descriptor
column. -/
def truthyProj (cols : List String) (row : List Val) (e : String) :
    Option Val :=
  if (entryGet cols row e).truthy then some (entryGet cols row e) else none

/-- Read the slot of a system at a dataset position out of the grouped
`system_dataset_results`. -/
def slotLookup (entries : List (String × List (Option SysInfo)))
    (name : String) (i : Nat) : Option SysInfo :=
  match dictLookup entries name with
  | some slots => slots.getD i none
  | none => none

/-- The DataFrame stored under the key `"orig"` of the result of
`generate_view_dataframes` (dereferenced through the heap), when the call
succeeds and the key is present. -/
def origEntry (cfg : BenchmarkConfig) (systems : List SysInfo) :
    Option DataFrame :=
  match generateViewDataframesH cfg systems with
  | .ok (h, vs) =>
    match dictLookup vs "orig" with
    | some r => some (hGet h r)
    | none => none
  | .error _ => none

/-! ## Concrete inputs for witnesses and counterexamples -/

/-- The `accuracy` metric of the spec's SST2 test scenario. -/
def mAcc : BenchmarkMetric := { name := "accuracy", default := some 0 }

/-- The SST2 dataset entry `("SST2", None, "test")`. -/
def dSST2 : Dataset := { dataset_name := "SST2", dataset_split := some "test" }

/-- A second dataset entry, for multi-dataset inputs. -/
def dMR : Dataset := { dataset_name := "MR", dataset_split := some "test" }

/-- The SST2 scenario config. -/
def cfgSST2 : BenchmarkConfig := { datasets := [dSST2], metrics := some [mAcc] }

/-- A two-dataset config with the global `accuracy` metric. -/
def cfgTwo : BenchmarkConfig :=
  { datasets := [dSST2, dMR], metrics := some [mAcc] }

/-- A config whose two dataset entries have the same identity tuple. -/
def cfgDup : BenchmarkConfig :=
  { datasets := [dSST2, dSST2], metrics := some [mAcc] }

/-- System "A" of the SST2 scenario, reporting accuracy 0.9. -/
def sysA : SysInfo :=
  { system_name := "A", dataset_name := "SST2", sub_dataset_name := none
    dataset_split := "test", results_overall := [("accuracy", 9 / 10)] }

/-- A second submission of system "A" to the same dataset, accuracy 0.25. -/
def sysA2 : SysInfo :=
  { system_name := "A", dataset_name := "SST2", sub_dataset_name := none
    dataset_split := "test", results_overall := [("accuracy", 1 / 4)] }

/-- System "B" submitting only to the second dataset. -/
def sysB : SysInfo :=
  { system_name := "B", dataset_name := "MR", sub_dataset_name := none
    dataset_split := "test", results_overall := [("accuracy", 3 / 5)] }

/-- System "B" of the spec's unlisted-dataset scenario, submitting to the
unconfigured dataset "SST3". -/
def sysUnlisted : SysInfo :=
  { system_name := "B", dataset_name := "SST3", sub_dataset_name := none
    dataset_split := "test", results_overall := [("accuracy", 1 / 2)] }

/-- A dataset entry with a sub-dataset and a non-default split, stored under
the keys the config format uses everywhere else in the code
(`sub_dataset_name` / `dataset_split`). -/
def dMismatch : Dataset :=
  { dataset_name := "X", sub_dataset_name := some "sub1"
    dataset_split := some "dev" }

/-- Config holding only `dMismatch`. -/
def cfgMismatch : BenchmarkConfig :=
  { datasets := [dMismatch], metrics := some [mAcc] }

/-- A system submitting exactly to `dMismatch`'s identity. -/
def sysMismatch : SysInfo :=
  { system_name := "C", dataset_name := "X", sub_dataset_name := some "sub1"
    dataset_split := "dev", results_overall := [("accuracy", 1 / 2)] }

/-- Columns of the label-collision counterexample. -/
def colsX : List String := ["a", "b"]

/-- First colliding row: `a = "x, b=y"`, `b = ""` (falsy). -/
def rowX1 : List Val := [Val.vStr "x, b=y", Val.vStr ""]

/-- Second colliding row: `a = "x"`, `b = "y"`. -/
def rowX2 : List Val := [Val.vStr "x", Val.vStr "y"]

/-- A small flat table with a duplicate `(system, label)` pair. -/
def dfW : DataFrame :=
  { indexName := none
    indexVals := [Val.vNum 0, Val.vNum 1, Val.vNum 2]
    cols := ["system_name", "dataset_name", "score"]
    rows := [[Val.vStr "A", Val.vStr "D1", Val.vNum 1],
             [Val.vStr "A", Val.vStr "D1", Val.vNum 2],
             [Val.vStr "B", Val.vStr "D2", Val.vNum 3]] }

/-- A one-row table with a numeric `metric_weight` column, for the multiply
operation. -/
def dfM : DataFrame :=
  { indexName := none
    indexVals := [Val.vNum 0]
    cols := ["system_name", "score", "metric_weight"]
    rows := [[Val.vStr "A", Val.vNum 2, Val.vNum (1 / 2)]] }

/-- A view consisting of a single mean operation. -/
def viewMean : BenchmarkViewConfig :=
  { name := "v", operations := [{ op := "mean" }] }

/-- A configured view that is itself named "orig". -/
def viewNamedOrig : BenchmarkViewConfig := { name := "orig", operations := [] }

/-- The SST2 config with no configured views. -/
def cfgNoViews : BenchmarkConfig :=
  { datasets := [dSST2], metrics := some [mAcc], views := [] }

/-- The SST2 config with a single view named "orig". -/
def cfgOrigView : BenchmarkConfig :=
  { datasets := [dSST2], metrics := some [mAcc], views := [viewNamedOrig] }

/-- The SST2 config with a single mean view. -/
def cfgMeanView : BenchmarkConfig :=
  { datasets := [dSST2], metrics := some [mAcc], views := [viewMean] }

/-- A record config requiring `accuracy` and `f1`. -/
def rcW : RecordConfig := { dataset_name := "SST2", metrics := ["accuracy", "f1"] }

/-- Aggregation weight tables with one explicit dataset weight. -/
def aggW : AggregationConfigs := { dataset_weights := [("SST2", 2)] }

/-- A fetched system reporting `accuracy` and `bleu` (intersection with the
record: `accuracy` only). -/
def csysW : ComposerSysInfo :=
  { system_name := "A", metric_config_names := ["accuracy", "bleu"]
    task_name := "t", target_language := "en", source_language := "en"
    results_overall := [("accuracy", 9 / 10), ("bleu", 1 / 2)] }

/-- A fetched system reporting only `bleu` (empty intersection: skipped). -/
def csysX : ComposerSysInfo :=
  { system_name := "B", metric_config_names := ["bleu"]
    task_name := "t", target_language := "en", source_language := "en"
    results_overall := [("bleu", 1 / 2)] }

/-- The DataFrame the builder produces on the SST2 scenario. -/
def dfSST2 : DataFrame :=
  { indexName := none
    indexVals := [Val.vNum 0]
    cols := ["system_name", "dataset_name", "sub_dataset_name",
             "dataset_split", "metric", "metric_weight", "score"]
    rows := [[Val.vStr "A", Val.vStr "SST2", Val.vNone, Val.vStr "test",
              Val.vStr "accuracy", Val.vNum 1, Val.vNum (9 / 10)]] }

/-! # Helper lemmas -/

attribute [local semireducible] Rat.mul Rat.inv Rat.add Rat.sub

/-- Lookup after a Python dict assignment. -/
lemma dictLookup_insert {α β : Type} [DecidableEq α] (l : List (α × β))
    (k a : α) (v : β) :
    dictLookup (dictInsert l k v) a =
      if a = k then some v else dictLookup l a := by
  induction l with
  | nil => simp [dictInsert, dictLookup]
  | cons p rest ih =>
    obtain ⟨k', v'⟩ := p
    by_cases hk : k = k'
    · subst hk
      by_cases ha : a = k
      · subst ha; simp [dictInsert, dictLookup]
      · simp [dictInsert, dictLookup, ha]
    · by_cases ha : a = k'
      · subst ha
        have hak : ¬a = k := fun h => hk h.symm
        simp [dictInsert, hk, dictLookup, hak]
      · simp [dictInsert, hk, dictLookup, ha, ih]

/-- `getLast?` ignores the head of a list with a non-empty tail. -/
lemma getLast?_cons_of_ne_nil {α : Type} (a : α) {l : List α} (h : l ≠ []) :
    (a :: l).getLast? = l.getLast? := by
  cases l with
  | nil => exact absurd rfl h
  | cons b t => exact List.getLast?_cons_cons

/-- Folding dict assignments over an enumerated list: a key maps to the
value of its last occurrence, falling back to the accumulator. -/
lemma foldInsert_lookup (l : List (Nat × Dataset))
    (acc : List ((String × Option String × String) × Nat))
    (k : String × Option String × String) :
    dictLookup (l.foldl (fun a p => dictInsert a (idKey p.2) p.1) acc) k =
      match (l.filter (fun p => decide (idKey p.2 = k))).getLast? with
      | some p => some p.1
      | none => dictLookup acc k := by
  induction l generalizing acc with
  | nil => simp
  | cons p rest ih =>
    rw [List.foldl_cons, ih]
    by_cases h : idKey p.2 = k
    · rw [List.filter_cons_of_pos (by simpa using h)]
      cases hr : (rest.filter (fun p => decide (idKey p.2 = k))).getLast? with
      | none =>
        have hnil : rest.filter (fun p => decide (idKey p.2 = k)) = [] :=
          List.getLast?_eq_none_iff.mp hr
        rw [hnil]
        simp [dictLookup_insert, h.symm]
      | some q =>
        have hne : rest.filter (fun p => decide (idKey p.2 = k)) ≠ [] := by
          intro hh
          rw [hh] at hr
          exact Option.noConfusion hr
        rw [getLast?_cons_of_ne_nil _ hne, hr]
    · rw [List.filter_cons_of_neg (by simpa using h)]
      cases hr : (rest.filter (fun p => decide (idKey p.2 = k))).getLast? with
      | none =>
        have hka : ¬k = idKey p.2 := fun hh => h hh.symm
        simp [hr, dictLookup_insert, hka]
      | some q => simp [hr]

/-- The dataset identity index maps a key to the position of the last
config entry carrying it (Python dict comprehensions silently overwrite
duplicate keys). -/
lemma datasetToId_lookup (ds : List Dataset)
    (k : String × Option String × String) :
    dictLookup (datasetToId ds) k =
      (((List.enum ds).filter
        (fun p => decide (idKey p.2 = k))).getLast?).map Prod.fst := by
  rw [datasetToId, foldInsert_lookup]
  cases (List.enum ds).filter (fun p => decide (idKey p.2 = k)) |>.getLast? with
  | none => simp [dictLookup]
  | some q => simp

/-- A cell of a row built by mapping a function over the column list. -/
lemma dfCell_map (cols : List String) (f : String → Val) (k : String)
    (h : k ∈ cols) :
    dfCell cols (cols.map f) k = some (f k) := by
  induction cols with
  | nil => cases h
  | cons c rest ih =>
    by_cases hk : k = c
    · subst hk; simp [dfCell, dictLookup]
    · have hr : k ∈ rest := (List.mem_cons.mp h).resolve_left hk
      simp [dfCell, dictLookup, hk] at ih ⊢
      exact ih hr

/-- The three trailing `df_input` keys are always columns. -/
lemma mem_dfCols_fixed (cfg : BenchmarkConfig) (k : String)
    (hk : k ∈ (["metric", "metric_weight", "score"] : List String)) :
    k ∈ dfCols cfg := by
  by_cases h : k ∈ dfColsBase cfg
  · exact List.mem_append_left _ h
  · refine List.mem_append_right _ ?_
    rw [List.mem_filter]
    exact ⟨hk, by simpa using h⟩

/-! # Claim C2 -/

/-- C2, counterexample: a config whose two dataset entries share the same
identity tuple does not make the Table Builder fail — the duplicate is
silently accepted and the build succeeds (no `ConfigError`, which the code
does not even define). -/
theorem claim2_counterexample :
    cfgDup.datasets.map specIdentity =
      [("SST2", none, "test"), ("SST2", none, "test")]
    ∧ exceptIsOk (generateDataframe cfgDup [sysA]) = true := by
  exact ⟨rfl, rfl⟩

/-- C2, amended: the dataset-identity index silently accepts duplicate
identity tuples; a key is mapped to the position of its **last** occurrence
in `config.datasets`, and no error is raised while building the index. -/
theorem claim2_duplicate_last_wins (ds : List Dataset)
    (k : String × Option String × String) :
    dictLookup (datasetToId ds) k =
      (((List.enum ds).filter
        (fun p => decide (idKey p.2 = k))).getLast?).map Prod.fst :=
  datasetToId_lookup ds k

/-! # Claim C3 -/

/-- C3: the code resolves a raw info's identity tuple against index keys
built from the config keys `sub_dataset` / `split`, while config datasets
carry `sub_dataset_name` / `dataset_split` (as `load_sys_infos` and the
builder's own error message read them). Hence a system submitting exactly
to a configured dataset with a sub-dataset and a non-default split is NOT
resolved: the builder raises `KeyError` although the claim says resolution
succeeds. (The unlisted-dataset half of the claim does hold: the SST3
scenario raises `KeyError`, a `LookupError`.) -/
theorem claim3_key_mismatch_bug :
    specIdentity dMismatch = sysKey sysMismatch
    ∧ generateDataframe cfgMismatch [sysMismatch] = .error .keyError
    ∧ generateDataframe cfgSST2 [sysA, sysUnlisted] = .error .keyError := by
  exact ⟨rfl, rfl, rfl⟩

/-! # Claim C4 -/

/-- C4: in every emitted row, `metric_weight` is the metric's explicit
weight, else `1 / |effective metric list|`; `score` is the submitted value
when the submission's results map contains the metric, the metric's default
(0 when unspecified) when the submission lacks the metric, and the default
when no submission exists. On the spec's SST2 scenario the builder emits
exactly one row: system "A", metric "accuracy", score 0.9, weight 1.0. -/
theorem claim4_score_weight_resolution :
    (∀ (cfg : BenchmarkConfig) (d : Dataset) (name : String)
        (ms : List BenchmarkMetric) (m : BenchmarkMetric)
        (slot : Option SysInfo),
      dfCell (dfCols cfg) (metricRow cfg d name ms m slot) "metric_weight"
          = some (Val.vNum (m.weight.getD (1 / (ms.length : ℚ))))
      ∧ (∀ s : SysInfo, slot = some s → ∀ v : ℚ,
          dictLookup s.results_overall m.name = some v →
            dfCell (dfCols cfg) (metricRow cfg d name ms m slot) "score"
              = some (Val.vNum v))
      ∧ (∀ s : SysInfo, slot = some s →
          dictLookup s.results_overall m.name = none →
            dfCell (dfCols cfg) (metricRow cfg d name ms m slot) "score"
              = some (Val.vNum (m.default.getD 0)))
      ∧ (slot = none →
          dfCell (dfCols cfg) (metricRow cfg d name ms m slot) "score"
            = some (Val.vNum (m.default.getD 0))))
    ∧ generateDataframe cfgSST2 [sysA] = .ok
        { indexName := none
          indexVals := [Val.vNum 0]
          cols := ["system_name", "dataset_name", "sub_dataset_name",
                   "dataset_split", "metric", "metric_weight", "score"]
          rows := [[Val.vStr "A", Val.vStr "SST2", Val.vNone, Val.vStr "test",
                    Val.vStr "accuracy", Val.vNum 1, Val.vNum (9 / 10)]] } := by
  constructor
  · intro cfg d name ms m slot
    have hw : "metric_weight" ∈ dfCols cfg := mem_dfCols_fixed cfg _ (by simp)
    have hs : "score" ∈ dfCols cfg := mem_dfCols_fixed cfg _ (by simp)
    refine ⟨?_, ?_, ?_, ?_⟩
    · unfold metricRow
      rw [dfCell_map _ _ _ hw]
      simp [dictLookup_insert]
    · rintro s rfl v hv
      unfold metricRow
      rw [dfCell_map _ _ _ hs]
      simp [dictLookup_insert, hv]
    · rintro s rfl hv
      unfold metricRow
      rw [dfCell_map _ _ _ hs]
      simp [dictLookup_insert, hv]
    · rintro rfl
      unfold metricRow
      rw [dfCell_map _ _ _ hs]
      simp [dictLookup_insert]
  · decide

/-- C4, witness: the score cell of the SST2 scenario row is the submitted
0.9. -/
theorem claim4_witness :
    dfCell (dfCols cfgSST2)
      (metricRow cfgSST2 dSST2 "A" [mAcc] mAcc (some sysA)) "score"
      = some (Val.vNum (9 / 10)) :=
  (claim4_score_weight_resolution.1 cfgSST2 dSST2 "A" [mAcc] mAcc
    (some sysA)).2.1 sysA rfl (9 / 10) (by decide)

/-! # Claim C5 -/

/-- C5, counterexample: two rows whose truthy descriptor values differ (the
second row has a truthy `b`, the first does not, and their `a` values
differ) still receive the same composite label, because a cell value may
embed the `", "` and `"="` separators. -/
theorem claim5_counterexample :
    colName colsX colsX rowX1 = colName colsX colsX rowX2
    ∧ ¬(∀ e ∈ colsX, truthyProj colsX rowX1 e = truthyProj colsX rowX2 e) := by
  decide

/-- C5, amended (forward direction): rows whose truthy descriptor
projections agree on every descriptor column receive the same composite
label. The converse of the original claim fails (`claim5_counterexample`):
distinct truthy descriptor values can collide on one label. -/
theorem claim5_label_of_truthy_projection (elems cols1 : List String)
    (row1 : List Val) (cols2 : List String) (row2 : List Val)
    (h : ∀ e ∈ elems, truthyProj cols1 row1 e = truthyProj cols2 row2 e) :
    colName elems cols1 row1 = colName elems cols2 row2 := by
  unfold colName
  congr 1
  induction elems with
  | nil => rfl
  | cons e rest ih =>
    have he := h e (List.mem_cons_self e rest)
    have hrest : ∀ x ∈ rest, truthyProj cols1 row1 x = truthyProj cols2 row2 x :=
      fun x hx => h x (List.mem_cons_of_mem e hx)
    unfold truthyProj at he
    by_cases t1 : (entryGet cols1 row1 e).truthy
    · rw [if_pos t1] at he
      by_cases t2 : (entryGet cols2 row2 e).truthy
      · rw [if_pos t2] at he
        have hv : entryGet cols1 row1 e = entryGet cols2 row2 e :=
          Option.some.inj he
        rw [List.filter_cons, List.filter_cons]
        simp only [t1, t2, if_true]
        simp only [List.map_cons]
        rw [ih hrest, hv]
      · rw [if_neg t2] at he
        exact absurd he (by simp)
    · rw [if_neg t1] at he
      by_cases t2 : (entryGet cols2 row2 e).truthy
      · rw [if_pos t2] at he
        exact absurd he (by simp)
      · rw [if_neg t2] at he
        rw [List.filter_cons, List.filter_cons]
        simp only [t1, t2, Bool.false_eq_true, if_false]
        exact ih hrest

/-- C5, witness: two rows agreeing on truthy descriptors (`b` falsy in both,
as `""` and `None`) receive the same label. -/
theorem claim5_witness :
    colName ["a", "b"] ["a", "b"] [Val.vStr "x", Val.vStr ""]
      = colName ["a", "b"] ["a", "b"] [Val.vStr "x", Val.vNone] :=
  claim5_label_of_truthy_projection ["a", "b"] ["a", "b"] _ ["a", "b"] _
    (by decide)

/-! # Helper lemmas for the Table Renderer -/

/-- Membership in the seen-pruned distinct list. -/
lemma mem_pySetAux {α : Type} [DecidableEq α] (seen l : List α) (a : α) :
    a ∈ pySetAux seen l ↔ a ∈ l ∧ a ∉ seen := by
  induction l generalizing seen with
  | nil => simp [pySetAux]
  | cons b rest ih =>
    by_cases hb : b ∈ seen
    · rw [pySetAux, if_pos hb, ih]
      constructor
      · rintro ⟨h1, h2⟩
        exact ⟨List.mem_cons_of_mem b h1, h2⟩
      · rintro ⟨h1, h2⟩
        rcases List.mem_cons.mp h1 with rfl | h1
        · exact absurd hb h2
        · exact ⟨h1, h2⟩
    · rw [pySetAux, if_neg hb, List.mem_cons, ih]
      constructor
      · rintro (rfl | ⟨h1, h2⟩)
        · exact ⟨List.mem_cons_self a rest, hb⟩
        · have h3 : a ∉ seen := fun hs => h2 (List.mem_cons_of_mem b hs)
          exact ⟨List.mem_cons_of_mem b h1, h3⟩
      · rintro ⟨h1, h2⟩
        by_cases hab : a = b
        · exact Or.inl hab
        · rcases List.mem_cons.mp h1 with h | h1
          · exact absurd h hab
          · refine Or.inr ⟨h1, ?_⟩
            rw [List.mem_cons]
            rintro (h | h)
            · exact hab h
            · exact h2 h

/-- A value occurs in the distinct list exactly when it occurs at all. -/
lemma mem_pySet {α : Type} [DecidableEq α] (l : List α) (a : α) :
    a ∈ pySet l ↔ a ∈ l := by
  rw [pySet, mem_pySetAux]
  simp

/-- The distinct list has no duplicates. -/
lemma nodup_pySetAux {α : Type} [DecidableEq α] (seen l : List α) :
    (pySetAux seen l).Nodup := by
  induction l generalizing seen with
  | nil => exact List.nodup_nil
  | cons b rest ih =>
    by_cases hb : b ∈ seen
    · rw [pySetAux, if_pos hb]
      exact ih seen
    · rw [pySetAux, if_neg hb]
      refine List.nodup_cons.mpr ⟨?_, ih (b :: seen)⟩
      intro hmem
      exact (mem_pySetAux _ _ _ |>.mp hmem).2 (List.mem_cons_self b seen)

/-- The distinct list has no duplicates. -/
lemma nodup_pySet {α : Type} [DecidableEq α] (l : List α) :
    (pySet l).Nodup := nodup_pySetAux [] l

/-- The enumeration index of a member is in range. -/
lemma idxOf_lt_length {α : Type} [DecidableEq α] {a : α} {l : List α}
    (h : a ∈ l) : idxOf a l < l.length := by
  induction l with
  | nil => cases h
  | cons b rest ih =>
    by_cases hab : a = b
    · simp [idxOf, hab]
    · rcases List.mem_cons.mp h with h' | h'
      · exact absurd h' hab
      · simpa [idxOf, hab] using Nat.succ_lt_succ (ih h')

/-- Reading a list back at the enumeration index of a member yields it. -/
lemma getD_idxOf {α : Type} [DecidableEq α] {a : α} {l : List α} (d : α)
    (h : a ∈ l) : l.getD (idxOf a l) d = a := by
  induction l with
  | nil => cases h
  | cons b rest ih =>
    by_cases hab : a = b
    · simp [idxOf, hab]
    · rcases List.mem_cons.mp h with h' | h'
      · exact absurd h' hab
      · simpa [idxOf, hab] using ih h'

/-- An in-range `getD` is a member. -/
lemma getD_mem {α : Type} {l : List α} {i : Nat} (hi : i < l.length) (d : α) :
    l.getD i d ∈ l := by
  rw [List.getD_eq_getElem?_getD, List.getElem?_eq_getElem hi]
  exact List.getElem_mem hi

/-- In a duplicate-free list the enumeration index of the `i`-th element is
`i`. -/
lemma idxOf_getD {α : Type} [DecidableEq α] {l : List α} (hnd : l.Nodup)
    {i : Nat} (hi : i < l.length) (d : α) :
    idxOf (l.getD i d) l = i := by
  induction l generalizing i with
  | nil => cases hi
  | cons b rest ih =>
    obtain ⟨hb, hrest⟩ := List.nodup_cons.mp hnd
    cases i with
    | zero => simp [idxOf]
    | succ i =>
      have hi' : i < rest.length := Nat.lt_of_succ_lt_succ hi
      have hmem : rest.getD i d ∈ rest := getD_mem hi' d
      have hne : rest.getD i d ≠ b := fun hh => hb (hh ▸ hmem)
      rw [List.getD_cons_succ]
      simp only [idxOf]
      rw [if_neg hne, ih hrest hi']

/-- Setting one position leaves other positions unchanged. -/
lemma getD_set_ne {α : Type} (l : List α) (i j : Nat) (x d : α)
    (h : j ≠ i) : (l.set i x).getD j d = l.getD j d := by
  induction l generalizing i j with
  | nil => simp
  | cons b rest ih =>
    cases i with
    | zero =>
      cases j with
      | zero => exact absurd rfl h
      | succ j => simp [List.set]
    | succ i =>
      cases j with
      | zero => simp [List.set]
      | succ j => simpa [List.set] using ih i j (fun hh => h (by rw [hh]))

/-- Setting an in-range position stores the value. -/
lemma getD_set_self {α : Type} (l : List α) (i : Nat) (x d : α)
    (h : i < l.length) : (l.set i x).getD i d = x := by
  induction l generalizing i with
  | nil => cases h
  | cons b rest ih =>
    cases i with
    | zero => simp [List.set]
    | succ i => simpa [List.set] using ih i (Nat.lt_of_succ_lt_succ h)

/-- Reading a replicated list anywhere yields the element or the default. -/
lemma getD_replicate_any {α : Type} (n i : Nat) (a d : α) :
    (List.replicate n a).getD i d = if i < n then a else d := by
  induction n generalizing i with
  | zero => simp
  | succ n ih =>
    cases i with
    | zero => simp [List.replicate]
    | succ i =>
      rw [List.replicate, List.getD_cons_succ, ih]
      simp [Nat.succ_lt_succ_iff]

/-- Cells of the zero matrix are zero. -/
lemma get2d_zero (R C : Nat) (i j : Nat) :
    get2d (List.replicate R (List.replicate C (0 : ℚ))) i j = 0 := by
  unfold get2d
  rw [getD_replicate_any]
  by_cases hi : i < R
  · rw [if_pos hi, getD_replicate_any]
    split <;> rfl
  · rw [if_neg hi]
    rfl

/-- Reading back the cell just written. -/
lemma get2d_set2d_self (m : List (List ℚ)) (i j : Nat) (q : ℚ)
    (hi : i < m.length) (hj : j < (m.getD i []).length) :
    get2d (set2d m i j q) i j = q := by
  unfold get2d set2d
  rw [getD_set_self _ _ _ _ hi, getD_set_self _ _ _ _ hj]

/-- Writing one cell leaves every other cell unchanged. -/
lemma get2d_set2d_other (m : List (List ℚ)) (i j i' j' : Nat) (q : ℚ)
    (h : ¬(i' = i ∧ j' = j)) :
    get2d (set2d m i' j' q) i j = get2d m i j := by
  unfold get2d set2d
  by_cases hii : i = i'
  · subst hii
    have hjj : j ≠ j' := fun hh => h ⟨rfl, hh.symm⟩
    rcases Nat.lt_or_ge i m.length with hi | hi
    · rw [getD_set_self _ _ _ _ hi, getD_set_ne _ _ _ _ _ hjj]
    · rw [List.set_eq_of_length_le hi]
  · rw [getD_set_ne _ _ _ _ _ hii]

/-- Filling the matrix by a left fold realises last-write-wins: a cell holds
the value of the last row written to it, or its previous content if no row
targets it. All writes are assumed in range and the matrix rectangular. -/
lemma foldl_set2d_spec (fi fj : List Val → Nat) (fq : List Val → ℚ)
    (R C : Nat) :
    ∀ (rs : List (List Val)) (m : List (List ℚ)), m.length = R →
    (∀ row ∈ m, row.length = C) →
    (∀ r ∈ rs, fi r < R) → (∀ r ∈ rs, fj r < C) →
    ∀ i j : Nat,
    get2d (rs.foldl (fun acc r => set2d acc (fi r) (fj r) (fq r)) m) i j =
      match (rs.filter (fun r => decide (fi r = i) && decide (fj r = j))).getLast? with
      | some r => fq r
      | none => get2d m i j := by
  intro rs
  induction rs with
  | nil => intro m _ _ _ _ i j; simp
  | cons r rest ih =>
    intro m hm hrows hfi hfj i j
    rw [List.foldl_cons]
    have hm' : (set2d m (fi r) (fj r) (fq r)).length = R := by
      unfold set2d; simpa using hm
    have hrows' : ∀ row ∈ set2d m (fi r) (fj r) (fq r), row.length = C := by
      intro row hrow
      unfold set2d at hrow
      rcases List.mem_or_eq_of_mem_set hrow with h | h
      · exact hrows row h
      · subst h
        have hfi0 : fi r < m.length := by
          rw [hm]
          exact hfi r (List.mem_cons_self r rest)
        rw [List.length_set]
        exact hrows _ (getD_mem hfi0 [])
    have hfi' : ∀ x ∈ rest, fi x < R :=
      fun x hx => hfi x (List.mem_cons_of_mem r hx)
    have hfj' : ∀ x ∈ rest, fj x < C :=
      fun x hx => hfj x (List.mem_cons_of_mem r hx)
    rw [ih _ hm' hrows' hfi' hfj' i j]
    by_cases hpred : (decide (fi r = i) && decide (fj r = j)) = true
    · rw [List.filter_cons, if_pos hpred]
      have hij : fi r = i ∧ fj r = j := by simpa using hpred
      cases hlast : (rest.filter (fun x => decide (fi x = i) && decide (fj x = j))).getLast? with
      | none =>
        have hnil := List.getLast?_eq_none_iff.mp hlast
        rw [hnil]
        simp only [List.getLast?_singleton]
        obtain ⟨h1, h2⟩ := hij
        have hfi0 : fi r < m.length := by
          rw [hm]
          exact hfi r (List.mem_cons_self r rest)
        have hfj0 : fj r < (m.getD (fi r) []).length := by
          rw [hrows _ (getD_mem hfi0 [])]
          exact hfj r (List.mem_cons_self r rest)
        rw [← h1, ← h2]
        exact get2d_set2d_self m _ _ _ hfi0 hfj0
      | some q =>
        have hne : rest.filter (fun x => decide (fi x = i) && decide (fj x = j)) ≠ [] := by
          intro hh; rw [hh] at hlast; exact Option.noConfusion hlast
        rw [getLast?_cons_of_ne_nil _ hne, hlast]
    · rw [List.filter_cons, if_neg hpred]
      cases hlast : (rest.filter (fun x => decide (fi x = i) && decide (fj x = j))).getLast? with
      | none =>
        rw [get2d_set2d_other m i j _ _ _ (by simpa using hpred)]
      | some q => rfl

/-! # Claim C6 -/

/-- C6: a cell of the rendered table at `(system, column label)` holds the
score of the last input row (in row order) mapping to that pair, and `0`
when no input row maps to it. -/
theorem claim6_last_write_wins_cells (df : DataFrame) (i j : Nat)
    (hi : i < (dataframeToTable df).system_names.length)
    (hj : j < (dataframeToTable df).column_names.length) :
    get2d (dataframeToTable df).scores i j =
      match (df.rows.filter (fun r =>
        decide (entryGet df.cols r "system_name"
          = (dataframeToTable df).system_names.getD i Val.vNone)
        && decide (colName (rendererElems df) df.cols r
          = (dataframeToTable df).column_names.getD j ""))).getLast? with
      | some r => valAsNum (entryGet df.cols r "score")
      | none => 0 := by
  rw [show (dataframeToTable df).system_names = rendererSystems df from rfl,
    show (dataframeToTable df).column_names = rendererCols df from rfl]
  have hi' : i < (rendererSystems df).length := hi
  have hj' : j < (rendererCols df).length := hj
  have hfi : ∀ r ∈ df.rows,
      idxOf (entryGet df.cols r "system_name") (rendererSystems df)
        < (rendererSystems df).length := by
    intro r hr
    exact idxOf_lt_length ((mem_pySet _ _).mpr (List.mem_map_of_mem _ hr))
  have hfj : ∀ r ∈ df.rows,
      idxOf (colName (rendererElems df) df.cols r) (rendererCols df)
        < (rendererCols df).length := by
    intro r hr
    exact idxOf_lt_length ((mem_pySet _ _).mpr (List.mem_map_of_mem _ hr))
  have hspec := foldl_set2d_spec
    (fun r => idxOf (entryGet df.cols r "system_name") (rendererSystems df))
    (fun r => idxOf (colName (rendererElems df) df.cols r) (rendererCols df))
    (fun r => valAsNum (entryGet df.cols r "score"))
    (rendererSystems df).length (rendererCols df).length
    df.rows
    (List.replicate (rendererSystems df).length
      (List.replicate (rendererCols df).length (0 : ℚ)))
    (by simp)
    (by
      intro row hrow
      rw [List.eq_of_mem_replicate hrow]
      simp)
    hfi hfj i j
  have hfilter : df.rows.filter (fun r =>
        decide (idxOf (entryGet df.cols r "system_name") (rendererSystems df) = i)
        && decide (idxOf (colName (rendererElems df) df.cols r) (rendererCols df) = j))
      = df.rows.filter (fun r =>
        decide (entryGet df.cols r "system_name"
          = (rendererSystems df).getD i Val.vNone)
        && decide (colName (rendererElems df) df.cols r
          = (rendererCols df).getD j "")) := by
    apply List.filter_congr
    intro r hr
    have hmemS : entryGet df.cols r "system_name" ∈ rendererSystems df :=
      (mem_pySet _ _).mpr (List.mem_map_of_mem _ hr)
    have hmemC : colName (rendererElems df) df.cols r ∈ rendererCols df :=
      (mem_pySet _ _).mpr (List.mem_map_of_mem _ hr)
    have hS : (idxOf (entryGet df.cols r "system_name") (rendererSystems df) = i)
        ↔ (entryGet df.cols r "system_name" = (rendererSystems df).getD i Val.vNone) := by
      constructor
      · intro hh
        rw [← hh, getD_idxOf _ hmemS]
      · intro hh
        rw [hh]
        exact idxOf_getD (nodup_pySet _) hi' _
    have hC : (idxOf (colName (rendererElems df) df.cols r) (rendererCols df) = j)
        ↔ (colName (rendererElems df) df.cols r = (rendererCols df).getD j "") := by
      constructor
      · intro hh
        rw [← hh, getD_idxOf _ hmemC]
      · intro hh
        rw [hh]
        exact idxOf_getD (nodup_pySet _) hj' _
    simp [hS, hC]
  have hzero : get2d (List.replicate (rendererSystems df).length
      (List.replicate (rendererCols df).length (0 : ℚ))) i j = 0 :=
    get2d_zero _ _ i j
  show get2d (df.rows.foldl _ _) i j = _
  rw [hspec, hfilter]
  cases (df.rows.filter (fun r =>
      decide (entryGet df.cols r "system_name"
        = (rendererSystems df).getD i Val.vNone)
      && decide (colName (rendererElems df) df.cols r
        = (rendererCols df).getD j ""))).getLast? with
  | none => exact hzero
  | some r => rfl

/-- C6, witness: in the sample table two rows map to the pair
`("A", "dataset_name=D1")`; the rendered cell holds the later score `2`. -/
theorem claim6_witness :
    get2d (dataframeToTable dfW).scores 0 0 = 2 := by
  have h := claim6_last_write_wins_cells dfW 0 0 (by decide) (by decide)
  rw [h]
  decide

/-! # Helper lemmas for the Table Builder's slot grouping -/

/-- A key is absent from a dict exactly when it is none of the keys. -/
lemma dictLookup_eq_none {β : Type} (acc : List (String × β)) (k : String) :
    dictLookup acc k = none ↔ k ∉ acc.map Prod.fst := by
  induction acc with
  | nil => simp [dictLookup]
  | cons e rest ih =>
    obtain ⟨k1, v1⟩ := e
    rw [List.map_cons, List.mem_cons]
    by_cases hk : k = k1
    · simp [dictLookup, hk]
    · simp [dictLookup, hk, ih]

/-- The slot update inside `buildSlots` does not change the key list. -/
lemma map_fst_update (acc : List (String × List (Option SysInfo)))
    (t : String) (i : Nat) (s : SysInfo) :
    (acc.map (fun e =>
      if e.1 = t then (e.1, e.2.set i (some s)) else e)).map Prod.fst
      = acc.map Prod.fst := by
  induction acc with
  | nil => rfl
  | cons e rest ih =>
    obtain ⟨k1, v1⟩ := e
    by_cases he : k1 = t <;> simp [he, ih]

/-- Lookup through the slot update: the targeted key's slots get the update,
every other key is untouched. -/
lemma dictLookup_update (acc : List (String × List (Option SysInfo)))
    (t : String) (i : Nat) (s : SysInfo) (a : String) :
    dictLookup (acc.map (fun e =>
        if e.1 = t then (e.1, e.2.set i (some s)) else e)) a =
      if a = t then (dictLookup acc a).map (fun sl => sl.set i (some s))
      else dictLookup acc a := by
  induction acc with
  | nil =>
    by_cases ha : a = t <;> simp [dictLookup, ha]
  | cons e rest ih =>
    obtain ⟨k1, v1⟩ := e
    rw [List.map_cons]
    by_cases he : k1 = t
    · rw [show (if ((k1, v1) : String × List (Option SysInfo)).1 = t
          then ((k1, v1).1, (k1, v1).2.set i (some s)) else (k1, v1))
          = (k1, v1.set i (some s)) by
        rw [if_pos he]]
      simp only [dictLookup]
      by_cases ha : a = k1
      · rw [if_pos ha, if_pos (ha.trans he), if_pos ha]
        rfl
      · have hat : ¬a = t := fun hx => ha (hx.trans he.symm)
        rw [if_neg ha, ih, if_neg hat, if_neg hat, if_neg ha]
    · rw [show (if ((k1, v1) : String × List (Option SysInfo)).1 = t
          then ((k1, v1).1, (k1, v1).2.set i (some s)) else (k1, v1))
          = (k1, v1) by
        rw [if_neg he]]
      simp only [dictLookup]
      by_cases ha : a = k1
      · have hat : ¬a = t := fun hx => he (ha.symm.trans hx)
        rw [if_pos ha, if_neg hat, if_pos ha]
      · rw [if_neg ha, ih]
        by_cases hat : a = t
        · rw [if_pos hat, if_pos hat, if_neg ha]
        · rw [if_neg hat, if_neg hat, if_neg ha]

/-- Lookup after appending a fresh entry at the end of a dict. -/
lemma dictLookup_append {β : Type} (acc : List (String × β)) (n : String)
    (v : β) (a : String) :
    dictLookup (acc ++ [(n, v)]) a =
      match dictLookup acc a with
      | some w => some w
      | none => if a = n then some v else none := by
  induction acc with
  | nil => simp [dictLookup]
  | cons e rest ih =>
    obtain ⟨k1, v1⟩ := e
    by_cases ha : a = k1 <;> simp [dictLookup, ha, ih]

/-- A successful lookup comes from an entry of the dict. -/
lemma dictLookup_mem {β : Type} (acc : List (String × β)) (k : String)
    (v : β) (h : dictLookup acc k = some v) : (k, v) ∈ acc := by
  induction acc with
  | nil => exact Option.noConfusion h
  | cons e rest ih =>
    obtain ⟨k1, v1⟩ := e
    rw [dictLookup] at h
    split at h
    · rename_i he
      have hv := Option.some.inj h
      rw [he, ← hv]
      exact List.mem_cons_self _ _
    · exact List.mem_cons_of_mem _ (ih h)

/-- Unfolding one step of the grouping loop. -/
lemma buildSlots_cons (idx : List ((String × Option String × String) × Nat))
    (n : Nat) (s : SysInfo) (rest : List SysInfo)
    (acc : List (String × List (Option SysInfo))) :
    buildSlots idx n (s :: rest) acc =
      match dictLookup idx (sysKey s) with
      | none => .error .keyError
      | some i =>
        buildSlots idx n rest
          ((if (dictLookup acc s.system_name).isSome then acc
            else acc ++ [(s.system_name, List.replicate n none)]).map (fun e =>
            if e.1 = s.system_name then (e.1, e.2.set i (some s)) else e)) :=
  rfl

/-- The grouping loop of the Table Builder: under resolvable, in-range
dataset identities it succeeds; the produced keys are the distinct system
names (appended on first occurrence); every slot list has one slot per
configured dataset; and each slot holds the **last** submission of that
system to that dataset position, realising silent last-write-wins on
duplicate submissions. -/
lemma buildSlots_spec (idx : List ((String × Option String × String) × Nat))
    (n : Nat) :
    ∀ (systems : List SysInfo) (acc : List (String × List (Option SysInfo))),
    (∀ s ∈ systems, (dictLookup idx (sysKey s)).isSome) →
    (∀ s ∈ systems, ∀ i, dictLookup idx (sysKey s) = some i → i < n) →
    (∀ e ∈ acc, e.2.length = n) →
    (acc.map Prod.fst).Nodup →
    ∃ out, buildSlots idx n systems acc = .ok out ∧
      (∀ e ∈ out, e.2.length = n) ∧
      (out.map Prod.fst).Nodup ∧
      (∀ k, k ∈ out.map Prod.fst ↔
        k ∈ acc.map Prod.fst ∨ k ∈ systems.map SysInfo.system_name) ∧
      (∀ name i, slotLookup out name i =
        match (systems.filter (fun s => decide (s.system_name = name)
            && decide (dictLookup idx (sysKey s) = some i))).getLast? with
        | some s => some s
        | none => slotLookup acc name i) := by
  intro systems
  induction systems with
  | nil =>
    intro acc _ _ hlen hnd
    refine ⟨acc, rfl, hlen, hnd, ?_, ?_⟩
    · intro k; simp
    · intro name i; simp
  | cons s rest ih =>
    intro acc hres hlt hlen hnd
    obtain ⟨i, hi⟩ := Option.isSome_iff_exists.mp
      (hres s (List.mem_cons_self s rest))
    have hin : i < n := hlt s (List.mem_cons_self s rest) i hi
    set acc1 := if (dictLookup acc s.system_name).isSome then acc
      else acc ++ [(s.system_name, List.replicate n none)] with hacc1
    set acc2 := acc1.map (fun e =>
      if e.1 = s.system_name then (e.1, e.2.set i (some s)) else e) with hacc2
    have F1 : ∀ e ∈ acc1, e.2.length = n := by
      intro e he
      rw [hacc1] at he
      split at he
      · exact hlen e he
      · rcases List.mem_append.mp he with h | h
        · exact hlen e h
        · rw [List.mem_singleton.mp h]
          exact List.length_replicate n none
    have hnone : ¬(dictLookup acc s.system_name).isSome →
        dictLookup acc s.system_name = none := by
      intro hmem
      cases h2 : dictLookup acc s.system_name with
      | none => rfl
      | some v => exact absurd (by rw [h2]; rfl) hmem
    have F2 : (acc1.map Prod.fst).Nodup := by
      rw [hacc1]
      split
      · exact hnd
      · rename_i hmem
        rw [List.map_append, List.nodup_append]
        refine ⟨hnd, List.nodup_singleton _, ?_⟩
        intro a ha hb
        rw [List.map_cons, List.map_nil, List.mem_singleton] at hb
        rw [hb] at ha
        exact ((dictLookup_eq_none acc s.system_name).mp (hnone hmem)) ha
    have F3 : ∀ k, k ∈ acc1.map Prod.fst ↔
        k ∈ acc.map Prod.fst ∨ k = s.system_name := by
      intro k
      rw [hacc1]
      split
      · rename_i hmem
        obtain ⟨v, hv⟩ := Option.isSome_iff_exists.mp hmem
        have hks : s.system_name ∈ acc.map Prod.fst :=
          List.mem_map.mpr ⟨(s.system_name, v), dictLookup_mem acc _ _ hv, rfl⟩
        constructor
        · exact Or.inl
        · rintro (h | rfl)
          · exact h
          · exact hks
      · rw [List.map_append, List.mem_append, List.map_cons, List.map_nil,
          List.mem_singleton]
    have F4 : (dictLookup acc1 s.system_name).isSome := by
      rw [hacc1]
      split
      · rename_i hmem; exact hmem
      · rename_i hmem
        rw [dictLookup_append, hnone hmem]
        simp
    have F5 : ∀ name j, slotLookup acc1 name j = slotLookup acc name j := by
      intro name j
      rw [hacc1]
      split
      · rfl
      · rename_i hmem
        unfold slotLookup
        rw [dictLookup_append]
        cases hl : dictLookup acc name with
        | some sl => rfl
        | none =>
          by_cases hns : name = s.system_name
          · rw [if_pos hns]
            show (List.replicate n none).getD j none = none
            rw [getD_replicate_any]
            split <;> rfl
          · rw [if_neg hns]
    have G1 : ∀ e ∈ acc2, e.2.length = n := by
      intro e he
      rw [hacc2] at he
      obtain ⟨e2, he2, heq⟩ := List.mem_map.mp he
      rw [← heq]
      by_cases h : e2.1 = s.system_name
      · rw [if_pos h]
        simpa using F1 e2 he2
      · rw [if_neg h]
        exact F1 e2 he2
    have G2 : (acc2.map Prod.fst).Nodup := by
      rw [hacc2, map_fst_update]
      exact F2
    have G3 : ∀ name j, slotLookup acc2 name j =
        if name = s.system_name ∧ j = i then some s
        else slotLookup acc1 name j := by
      intro name j
      rw [hacc2]
      unfold slotLookup
      rw [dictLookup_update]
      by_cases hname : name = s.system_name
      · rw [if_pos hname]
        obtain ⟨sl, hsl⟩ := Option.isSome_iff_exists.mp F4
        rw [← hname] at hsl
        rw [hsl]
        have hlsl : sl.length = n := F1 _ (dictLookup_mem acc1 _ _ (hname ▸ hsl))
        by_cases hj : j = i
        · rw [if_pos ⟨hname, hj⟩, hj]
          show (sl.set i (some s)).getD i none = some s
          exact getD_set_self sl i (some s) none (hlsl ▸ hin)
        · rw [if_neg (fun hh => hj hh.2)]
          show (sl.set i (some s)).getD j none = sl.getD j none
          exact getD_set_ne sl i j (some s) none hj
      · rw [if_neg hname, if_neg (fun hh => hname hh.1)]
    have hres2 : ∀ x ∈ rest, (dictLookup idx (sysKey x)).isSome :=
      fun x hx => hres x (List.mem_cons_of_mem s hx)
    have hlt2 : ∀ x ∈ rest, ∀ j, dictLookup idx (sysKey x) = some j → j < n :=
      fun x hx => hlt x (List.mem_cons_of_mem s hx)
    obtain ⟨out, hok, hlenO, hndO, hkeysO, hslotO⟩ :=
      ih acc2 hres2 hlt2 G1 G2
    refine ⟨out, ?_, hlenO, hndO, ?_, ?_⟩
    · rw [buildSlots_cons, hi]
      exact hok
    · intro k
      rw [hkeysO k, hacc2, map_fst_update, F3 k, List.map_cons, List.mem_cons]
      constructor
      · rintro ((h | h) | h)
        · exact Or.inl h
        · exact Or.inr (Or.inl h)
        · exact Or.inr (Or.inr h)
      · rintro (h | h | h)
        · exact Or.inl (Or.inl h)
        · exact Or.inl (Or.inr h)
        · exact Or.inr h
    · intro name j
      rw [hslotO name j, List.filter_cons]
      by_cases hp : (decide (s.system_name = name)
          && decide (dictLookup idx (sysKey s) = some j)) = true
      · rw [if_pos hp]
        have hp' : s.system_name = name ∧ i = j := by
          rw [Bool.and_eq_true, decide_eq_true_iff, decide_eq_true_iff, hi] at hp
          exact ⟨hp.1, Option.some.inj hp.2⟩
        cases hl : (rest.filter (fun x => decide (x.system_name = name)
            && decide (dictLookup idx (sysKey x) = some j))).getLast? with
        | none =>
          rw [List.getLast?_eq_none_iff.mp hl]
          rw [G3 name j, if_pos ⟨hp'.1.symm, hp'.2.symm⟩]
          rfl
        | some q =>
          rw [getLast?_cons_of_ne_nil _ (by
            intro hh
            rw [hh] at hl
            exact Option.noConfusion hl), hl]
      · rw [if_neg hp]
        have hp' : ¬(name = s.system_name ∧ j = i) := by
          rintro ⟨h1, h2⟩
          exact hp (by
            rw [Bool.and_eq_true, decide_eq_true_iff, decide_eq_true_iff, hi, h1, h2]
            exact ⟨rfl, rfl⟩)
        cases hl : (rest.filter (fun x => decide (x.system_name = name)
            && decide (dictLookup idx (sysKey x) = some j))).getLast? with
        | none => rw [G3 name j, if_neg hp', F5 name j]
        | some q => rfl


/-- The last element of a list is a member. -/
lemma mem_of_getLast?_own {α : Type} {l : List α} {a : α}
    (h : l.getLast? = some a) : a ∈ l := by
  induction l with
  | nil => exact Option.noConfusion h
  | cons b rest ih =>
    cases rest with
    | nil =>
      rw [List.getLast?_singleton] at h
      rw [Option.some.inj h]
      exact List.mem_cons_self _ _
    | cons c rest2 =>
      rw [List.getLast?_cons_cons] at h
      exact List.mem_cons_of_mem _ (ih h)

/-- Index values produced by `dataset_to_id` are positions into
`config.datasets`. -/
lemma datasetToId_lt (ds : List Dataset) (k : String × Option String × String)
    (i : Nat) (h : dictLookup (datasetToId ds) k = some i) : i < ds.length := by
  rw [datasetToId_lookup] at h
  cases hl : ((List.enum ds).filter (fun p => decide (idKey p.2 = k))).getLast? with
  | none =>
    rw [hl] at h
    exact Option.noConfusion h
  | some p =>
    rw [hl] at h
    have hp : p.1 = i := Option.some.inj h
    have hmem : p ∈ (List.enum ds).filter (fun p => decide (idKey p.2 = k)) :=
      mem_of_getLast?_own hl
    have henum : p ∈ List.enum ds := List.mem_of_mem_filter hmem
    exact hp ▸ List.fst_lt_of_mem_enum henum

/-- The rows emitted for one dataset slot: the effective metric list
resolves, and one row is emitted per metric. -/
lemma rowsForDataset_len (cfg : BenchmarkConfig) (name : String) (d : Dataset)
    (slot : Option SysInfo) (M : Nat)
    (h : (effMetrics cfg d).map List.length = some M) :
    ∃ rs, rowsForDataset cfg name d slot = .ok rs ∧ rs.length = M := by
  cases hm : effMetrics cfg d with
  | none =>
    rw [hm] at h
    exact Option.noConfusion h
  | some ms =>
    rw [hm] at h
    refine ⟨ms.map (fun m => metricRow cfg d name ms m slot), ?_, ?_⟩
    · unfold rowsForDataset
      rw [hm]
    · rw [List.length_map]
      exact Option.some.inj h

/-- One system emits `|pairs| * M` rows over its dataset/slot pairs. -/
lemma rowsForSystem_len (cfg : BenchmarkConfig) (name : String) (M : Nat) :
    ∀ pairs : List (Dataset × Option SysInfo),
    (∀ p ∈ pairs, (effMetrics cfg p.1).map List.length = some M) →
    ∃ rs, rowsForSystem cfg name pairs = .ok rs ∧
      rs.length = pairs.length * M := by
  intro pairs
  induction pairs with
  | nil =>
    intro _
    exact ⟨[], rfl, by simp⟩
  | cons p rest ih =>
    intro hp
    obtain ⟨d, slot⟩ := p
    obtain ⟨rs1, h1, hl1⟩ := rowsForDataset_len cfg name d slot M
      (hp (d, slot) (List.mem_cons_self _ _))
    obtain ⟨rs2, h2, hl2⟩ := ih (fun q hq => hp q (List.mem_cons_of_mem _ hq))
    refine ⟨rs1 ++ rs2, ?_, ?_⟩
    · unfold rowsForSystem
      rw [h1, h2]
    · rw [List.length_append, hl1, hl2, List.length_cons, Nat.succ_mul,
        Nat.add_comm]

/-- All systems together emit `|entries| * (N * M)` rows. -/
lemma makeRows_len (cfg : BenchmarkConfig) (M : Nat)
    (hms : ∀ d ∈ cfg.datasets, (effMetrics cfg d).map List.length = some M) :
    ∀ entries : List (String × List (Option SysInfo)),
    (∀ e ∈ entries, e.2.length = cfg.datasets.length) →
    ∃ rows, makeRows cfg entries = .ok rows ∧
      rows.length = entries.length * (cfg.datasets.length * M) := by
  intro entries
  induction entries with
  | nil =>
    intro _
    exact ⟨[], rfl, by simp⟩
  | cons e rest ih =>
    intro hlen
    obtain ⟨name, slots⟩ := e
    have hzlen : (cfg.datasets.zip slots).length = cfg.datasets.length := by
      rw [List.length_zip, hlen (name, slots) (List.mem_cons_self _ _)]
      exact Nat.min_self _
    obtain ⟨rs1, h1, hl1⟩ := rowsForSystem_len cfg name M
      (cfg.datasets.zip slots) (by
        intro p hp
        obtain ⟨d, slot⟩ := p
        exact hms d (List.of_mem_zip hp).1)
    obtain ⟨rs2, h2, hl2⟩ := ih (fun q hq => hlen q (List.mem_cons_of_mem _ hq))
    refine ⟨rs1 ++ rs2, ?_, ?_⟩
    · unfold makeRows
      rw [h1, h2]
    · rw [List.length_append, hl1, hl2, hzlen, List.length_cons, Nat.succ_mul,
        Nat.add_comm]

/-! # Claim C1 -/

/-- C1: for a config with `N` datasets, each resolving to an effective
metric list of size `M`, and raw infos whose identities all resolve against
the builder's index, the builder succeeds and the table has exactly
`S × N × M` rows, `S` being the number of distinct `system_name` values —
default-scored rows included for datasets a system did not submit to. -/
theorem claim1_rectangularity (cfg : BenchmarkConfig) (systems : List SysInfo)
    (M : Nat)
    (hres : ∀ s ∈ systems,
      (dictLookup (datasetToId cfg.datasets) (sysKey s)).isSome)
    (hms : ∀ d ∈ cfg.datasets, (effMetrics cfg d).map List.length = some M) :
    ∃ df, generateDataframe cfg systems = .ok df ∧
      df.rows.length =
        (systems.map SysInfo.system_name).dedup.length
          * cfg.datasets.length * M := by
  have hlt : ∀ s ∈ systems, ∀ i,
      dictLookup (datasetToId cfg.datasets) (sysKey s) = some i →
        i < cfg.datasets.length :=
    fun s _ i hi => datasetToId_lt _ _ _ hi
  obtain ⟨out, hok, hlen, hnd, hkeys, _⟩ :=
    buildSlots_spec (datasetToId cfg.datasets) cfg.datasets.length systems []
      hres hlt (by simp) (by simp)
  obtain ⟨rows, hrows, hrlen⟩ := makeRows_len cfg M hms out hlen
  refine ⟨{ indexName := none
            indexVals := (List.range rows.length).map (fun i => Val.vNum i)
            cols := dfCols cfg
            rows := rows }, ?_, ?_⟩
  · simp only [generateDataframe, hok, hrows]
  · show rows.length = _
    have hcount : out.length =
        (systems.map SysInfo.system_name).dedup.length := by
      have h1 : (out.map Prod.fst).toFinset
          = (systems.map SysInfo.system_name).toFinset := by
        apply Finset.ext
        intro a
        rw [List.mem_toFinset, List.mem_toFinset, hkeys a]
        simp
      calc out.length = (out.map Prod.fst).length :=
            (List.length_map _ _).symm
        _ = (out.map Prod.fst).dedup.length := by
            rw [List.dedup_eq_self.mpr hnd]
        _ = (out.map Prod.fst).toFinset.card := (List.card_toFinset _).symm
        _ = (systems.map SysInfo.system_name).toFinset.card := by rw [h1]
        _ = (systems.map SysInfo.system_name).dedup.length :=
            List.card_toFinset _
    rw [hrlen, hcount, Nat.mul_assoc]

/-- C1, witness: two datasets, one metric, two systems of which "B" submits
to only one dataset — 2 × 2 × 1 = 4 rows. -/
theorem claim1_witness :
    ∃ df, generateDataframe cfgTwo [sysA, sysB] = .ok df ∧
      df.rows.length =
        ([sysA, sysB].map SysInfo.system_name).dedup.length
          * cfgTwo.datasets.length * 1 :=
  claim1_rectangularity cfgTwo [sysA, sysB] 1 (by decide) (by decide)

/-! # Claim C10 -/

/-- C10: duplicate submissions (same system name and dataset identity) are
silently accepted; the builder groups infos into slots where the **later**
submission overwrites the earlier one, the emitted table being computed
solely from those slots. -/
theorem claim10_duplicate_submissions (cfg : BenchmarkConfig)
    (systems : List SysInfo)
    (hres : ∀ s ∈ systems,
      (dictLookup (datasetToId cfg.datasets) (sysKey s)).isSome) :
    ∃ entries,
      buildSlots (datasetToId cfg.datasets) cfg.datasets.length systems []
        = .ok entries ∧
      generateDataframe cfg systems = Except.map (fun rows =>
        { indexName := none
          indexVals := (List.range rows.length).map (fun i => Val.vNum i)
          cols := dfCols cfg
          rows := rows : DataFrame }) (makeRows cfg entries) ∧
      ∀ name i, slotLookup entries name i =
        (systems.filter (fun s => decide (s.system_name = name)
          && decide (dictLookup (datasetToId cfg.datasets) (sysKey s)
            = some i))).getLast? := by
  have hlt : ∀ s ∈ systems, ∀ i,
      dictLookup (datasetToId cfg.datasets) (sysKey s) = some i →
        i < cfg.datasets.length :=
    fun s _ i hi => datasetToId_lt _ _ _ hi
  obtain ⟨out, hok, _, _, _, hslots⟩ :=
    buildSlots_spec (datasetToId cfg.datasets) cfg.datasets.length systems []
      hres hlt (by simp) (by simp)
  refine ⟨out, hok, ?_, ?_⟩
  · simp only [generateDataframe, hok]
    cases makeRows cfg out with
    | error e => rfl
    | ok rows => rfl
  · intro name i
    rw [hslots name i]
    cases (systems.filter (fun s => decide (s.system_name = name)
      && decide (dictLookup (datasetToId cfg.datasets) (sysKey s)
        = some i))).getLast? with
    | some q => rfl
    | none => rfl

/-- C10, witness: system "A" submits twice to SST2; the build succeeds and
slot 0 of "A" holds the second submission. -/
theorem claim10_witness :
    ∃ entries,
      buildSlots (datasetToId cfgSST2.datasets) cfgSST2.datasets.length
        [sysA, sysA2] [] = .ok entries ∧
      generateDataframe cfgSST2 [sysA, sysA2] = Except.map (fun rows =>
        { indexName := none
          indexVals := (List.range rows.length).map (fun i => Val.vNum i)
          cols := dfCols cfgSST2
          rows := rows : DataFrame }) (makeRows cfgSST2 entries) ∧
      ∀ name i, slotLookup entries name i =
        ([sysA, sysA2].filter (fun s => decide (s.system_name = name)
          && decide (dictLookup (datasetToId cfgSST2.datasets) (sysKey s)
            = some i))).getLast? :=
  claim10_duplicate_submissions cfgSST2 [sysA, sysA2] (by decide)

/-! # Claim C7 -/

/-- On a multiply operation the three sequential `if`s of the loop body
reduce to the multiply assignment alone. -/
lemma applyOperation_multiply (df : DataFrame) (o : Option String) :
    applyOperation df { op := "multiply", other := o } = multiplyScore df o := by
  rw [show applyOperation df { op := "multiply", other := o }
      = (match multiplyScore df o with
        | Except.error e => Except.error e
        | Except.ok d =>
          if ("multiply" : String) = "sum" then groupSum d else Except.ok d)
    from rfl]
  cases h : multiplyScore df o with
  | error e => rfl
  | ok d =>
    show (if ("multiply" : String) = "sum" then groupSum d else Except.ok d)
      = Except.ok d
    rw [if_neg (show ¬("multiply" : String) = "sum" by decide)]

/-- Reducing the multiply assignment at a present `other` key. -/
lemma multiplyScore_some (df : DataFrame) (c : String) :
    multiplyScore df (some c) =
      if "score" ∈ df.cols then
        if c ∈ df.cols then
          Except.ok { df with rows := df.rows.map (fun r =>
            setCol df.cols r "score"
              (Val.vNum (valAsNum (entryGet df.cols r "score")
                * valAsNum (entryGet df.cols r c)))) }
        else Except.error PyErr.keyError
      else Except.error PyErr.keyError := rfl

/-- C7: a `Multiply{other}` operation multiplies every row's score by that
row's value of the other column, leaving all other columns unchanged, when
the other column is in the current schema; it raises `KeyError` (a
`LookupError`) when the column is absent. -/
theorem claim7_multiply_op :
    (∀ (df : DataFrame) (c : String), "score" ∈ df.cols → c ∈ df.cols →
      applyOperation df { op := "multiply", other := some c } =
        .ok { df with rows := df.rows.map (fun r =>
          setCol df.cols r "score"
            (Val.vNum (valAsNum (entryGet df.cols r "score")
              * valAsNum (entryGet df.cols r c)))) })
    ∧ (∀ (df : DataFrame) (c : String), c ∉ df.cols →
      applyOperation df { op := "multiply", other := some c }
        = .error .keyError) := by
  constructor
  · intro df c hs hc
    rw [applyOperation_multiply, multiplyScore_some, if_pos hs, if_pos hc]
  · intro df c hc
    rw [applyOperation_multiply, multiplyScore_some]
    by_cases hs : "score" ∈ df.cols
    · rw [if_pos hs, if_neg hc]
    · rw [if_neg hs]

/-- C7, witness: multiplying the one-row table by its `metric_weight`
column succeeds; multiplying by a missing column raises `KeyError`. -/
theorem claim7_witness :
    applyOperation dfM { op := "multiply", other := some "metric_weight" } =
      .ok { dfM with rows := dfM.rows.map (fun r =>
        setCol dfM.cols r "score"
          (Val.vNum (valAsNum (entryGet dfM.cols r "score")
            * valAsNum (entryGet dfM.cols r "metric_weight")))) }
    ∧ applyOperation dfM { op := "multiply", other := some "missing" }
      = .error .keyError :=
  ⟨claim7_multiply_op.1 dfM "metric_weight" (by decide) (by decide),
   claim7_multiply_op.2 dfM "missing" (by decide)⟩

/-! # Claim C8 -/

/-- The metrics dict comprehension of the composer: under present lookups
it succeeds, its key list is exactly the requested metric list, and its
values come from `results.overall`. -/
lemma lookupAll_spec (res : List (String × ℚ)) :
    ∀ ms : List String, (∀ m ∈ ms, (dictLookup res m).isSome) →
    ∃ l, lookupAll res ms = .ok l ∧ l.map Prod.fst = ms ∧
      ∀ p ∈ l, dictLookup res p.1 = some p.2 := by
  intro ms
  induction ms with
  | nil =>
    intro _
    exact ⟨[], rfl, rfl, by intro p hp; cases hp⟩
  | cons m rest ih =>
    intro h
    obtain ⟨v, hv⟩ := Option.isSome_iff_exists.mp
      (h m (List.mem_cons_self m rest))
    obtain ⟨l, hl, hmap, hvals⟩ :=
      ih (fun x hx => h x (List.mem_cons_of_mem m hx))
    refine ⟨(m, v) :: l, ?_, ?_, ?_⟩
    · unfold lookupAll
      rw [hv, hl]
    · rw [List.map_cons, hmap]
    · intro p hp
      rcases List.mem_cons.mp hp with rfl | hp
      · exact hv
      · exact hvals p hp

/-- The per-system branch of the composer loop: skipped exactly when the
metric intersection is empty; otherwise a record is built whose metrics map
has the intersection as key set, valued from `results.overall`. -/
lemma processSystem_spec (agg : AggregationConfigs) (rc : RecordConfig)
    (s : ComposerSysInfo)
    (h : ∀ m ∈ commonMetrics rc s, (dictLookup s.results_overall m).isSome) :
    (commonMetrics rc s = [] → processSystem agg rc s = .ok none)
    ∧ (commonMetrics rc s ≠ [] →
      ∃ rec, processSystem agg rc s = .ok (some rec) ∧ rec.sys = s ∧
        rec.metrics.map Prod.fst = commonMetrics rc s ∧
        ∀ p ∈ rec.metrics, dictLookup s.results_overall p.1 = some p.2) := by
  constructor
  · intro hemp
    unfold processSystem
    rw [if_pos (by rw [hemp]; rfl)]
  · intro hne
    unfold processSystem
    rw [if_neg (fun hh => hne (List.length_eq_zero.mp hh))]
    obtain ⟨l, hl, hmap, hvals⟩ :=
      lookupAll_spec s.results_overall (commonMetrics rc s) h
    rw [hl]
    exact ⟨_, rfl, rfl, hmap, hvals⟩

/-- C8: over the fetched systems of one record config, a LeaderboardRecord
is appended exactly for the systems whose reported-metrics/required-metrics
intersection is non-empty, and an appended record's metrics map has exactly
that intersection as its key set, valued from the system's overall
results. -/
theorem claim8_record_invariant (agg : AggregationConfigs)
    (rc : RecordConfig) (systems : List ComposerSysInfo)
    (h : ∀ s ∈ systems, ∀ m ∈ commonMetrics rc s,
      (dictLookup s.results_overall m).isSome) :
    ∃ L, recordLeaderboard agg rc systems = .ok L ∧
      L.length = (systems.filter
        (fun s => decide (commonMetrics rc s ≠ []))).length ∧
      ∀ r ∈ L, r.metrics.map Prod.fst = commonMetrics rc r.sys ∧
        commonMetrics rc r.sys ≠ [] ∧
        ∀ p ∈ r.metrics, dictLookup r.sys.results_overall p.1 = some p.2 := by
  induction systems with
  | nil =>
    exact ⟨[], rfl, rfl, by intro r hr; cases hr⟩
  | cons s rest ih =>
    obtain ⟨L, hL, hlen, hall⟩ :=
      ih (fun x hx => h x (List.mem_cons_of_mem s hx))
    have hs := h s (List.mem_cons_self s rest)
    by_cases hemp : commonMetrics rc s = []
    · have hps := (processSystem_spec agg rc s hs).1 hemp
      refine ⟨L, ?_, ?_, hall⟩
      · unfold recordLeaderboard
        rw [hps, hL]
      · rw [List.filter_cons, if_neg (by simp [hemp]), hlen]
    · obtain ⟨rec, hps, hsys, hmap, hvals⟩ :=
        (processSystem_spec agg rc s hs).2 hemp
      refine ⟨rec :: L, ?_, ?_, ?_⟩
      · unfold recordLeaderboard
        rw [hps, hL]
      · rw [List.filter_cons, if_pos (by simp [hemp]), List.length_cons,
          List.length_cons, hlen]
      · intro r hr
        rcases List.mem_cons.mp hr with rfl | hr
        · rw [hsys]
          exact ⟨hmap, hemp, hvals⟩
        · exact hall r hr

/-- C8, witness: of two fetched systems, only the one sharing `accuracy`
with the record contributes, and its metrics map holds exactly that
intersection. -/
theorem claim8_witness :
    ∃ L, recordLeaderboard aggW rcW [csysW, csysX] = .ok L ∧
      L.length = ([csysW, csysX].filter
        (fun s => decide (commonMetrics rcW s ≠ []))).length ∧
      ∀ r ∈ L, r.metrics.map Prod.fst = commonMetrics rcW r.sys ∧
        commonMetrics rcW r.sys ≠ [] ∧
        ∀ p ∈ r.metrics, dictLookup r.sys.results_overall p.1 = some p.2 :=
  claim8_record_invariant aggW rcW [csysW, csysX] (by decide)

/-! # Helper lemmas for the heap model -/

/-- Appending objects leaves existing references intact. -/
lemma hGet_append_lt (h l : List DataFrame) (q : Nat) (hq : q < h.length) :
    hGet (h ++ l) q = hGet h q := by
  induction h generalizing q with
  | nil => cases hq
  | cons d rest ih =>
    cases q with
    | zero => rfl
    | succ q => exact ih q (Nat.lt_of_succ_lt_succ hq)

/-- A freshly allocated object is read back. -/
lemma hGet_append_self (h : List DataFrame) (d : DataFrame) :
    hGet (h ++ [d]) h.length = d := by
  induction h with
  | nil => rfl
  | cons e rest ih => exact ih

/-- An in-place update leaves other references intact. -/
lemma hGet_set_ne (h : List DataFrame) (r q : Nat) (d : DataFrame)
    (hq : q ≠ r) : hGet (h.set r d) q = hGet h q := by
  induction h generalizing r q with
  | nil => rfl
  | cons e rest ih =>
    cases r with
    | zero =>
      cases q with
      | zero => exact absurd rfl hq
      | succ q => rfl
    | succ r =>
      cases q with
      | zero => rfl
      | succ q => exact ih r q (fun hh => hq (by rw [hh]))

/-- An in-place update on a live reference is read back. -/
lemma hGet_set_self (h : List DataFrame) (r : Nat) (d : DataFrame)
    (hr : r < h.length) : hGet (h.set r d) r = d := by
  induction h generalizing r with
  | nil => cases hr
  | cons e rest ih =>
    cases r with
    | zero => rfl
    | succ r => exact ih r (Nat.lt_of_succ_lt_succ hr)

/-- The `mean` stage: references below `n` are preserved, the heap grows,
and the resulting binding matches the pure stage on the bound value. -/
lemma step1_spec (o : Operation) (h : List DataFrame) (r n : Nat)
    (hn : n ≤ h.length) (hnr : n ≤ r) (hr : r < h.length) :
    (∀ q, q < n → hGet (step1 o h r).1 q = hGet h q) ∧
    h.length ≤ (step1 o h r).1.length ∧
    (match (step1 o h r).2, app1 o (hGet h r) with
     | .ok r2, .ok d =>
         n ≤ r2 ∧ r2 < (step1 o h r).1.length ∧ hGet (step1 o h r).1 r2 = d
     | .error e, .error e2 => e = e2
     | _, _ => False) := by
  unfold step1 app1
  by_cases h1 : o.op = "mean"
  · rw [if_pos h1, if_pos h1]
    cases hg : groupMean (hGet h r) with
    | error e => exact ⟨fun q _ => rfl, Nat.le_refl _, rfl⟩
    | ok d =>
      refine ⟨?_, ?_, hn, ?_, hGet_append_self h d⟩
      · intro q hq
        exact hGet_append_lt h [d] q (Nat.lt_of_lt_of_le hq hn)
      · simp
      · simp
  · rw [if_neg h1, if_neg h1]
    exact ⟨fun q _ => rfl, Nat.le_refl _, hnr, hr, rfl⟩

/-- The `multiply` stage: the in-place assignment touches only the bound
reference. -/
lemma step2_spec (o : Operation) (h : List DataFrame) (r n : Nat)
    (hn : n ≤ h.length) (hnr : n ≤ r) (hr : r < h.length) :
    (∀ q, q < n → hGet (step2 o h r).1 q = hGet h q) ∧
    h.length ≤ (step2 o h r).1.length ∧
    (match (step2 o h r).2, app2 o (hGet h r) with
     | .ok r2, .ok d =>
         n ≤ r2 ∧ r2 < (step2 o h r).1.length ∧ hGet (step2 o h r).1 r2 = d
     | .error e, .error e2 => e = e2
     | _, _ => False) := by
  unfold step2 app2
  by_cases h1 : o.op = "multiply"
  · rw [if_pos h1, if_pos h1]
    cases hm : multiplyScore (hGet h r) o.other with
    | error e => exact ⟨fun q _ => rfl, Nat.le_refl _, rfl⟩
    | ok d =>
      refine ⟨?_, ?_, hnr, ?_, hGet_set_self h r d hr⟩
      · intro q hq
        exact hGet_set_ne h r q d (Nat.ne_of_lt (Nat.lt_of_lt_of_le hq hnr))
      · simp
      · simpa using hr
  · rw [if_neg h1, if_neg h1]
    exact ⟨fun q _ => rfl, Nat.le_refl _, hnr, hr, rfl⟩

/-- The `sum` stage, analogous to the `mean` stage. -/
lemma step3_spec (o : Operation) (h : List DataFrame) (r n : Nat)
    (hn : n ≤ h.length) (hnr : n ≤ r) (hr : r < h.length) :
    (∀ q, q < n → hGet (step3 o h r).1 q = hGet h q) ∧
    h.length ≤ (step3 o h r).1.length ∧
    (match (step3 o h r).2, app3 o (hGet h r) with
     | .ok r2, .ok d =>
         n ≤ r2 ∧ r2 < (step3 o h r).1.length ∧ hGet (step3 o h r).1 r2 = d
     | .error e, .error e2 => e = e2
     | _, _ => False) := by
  unfold step3 app3
  by_cases h1 : o.op = "sum"
  · rw [if_pos h1, if_pos h1]
    cases hg : groupSum (hGet h r) with
    | error e => exact ⟨fun q _ => rfl, Nat.le_refl _, rfl⟩
    | ok d =>
      refine ⟨?_, ?_, hn, ?_, hGet_append_self h d⟩
      · intro q hq
        exact hGet_append_lt h [d] q (Nat.lt_of_lt_of_le hq hn)
      · simp
      · simp
  · rw [if_neg h1, if_neg h1]
    exact ⟨fun q _ => rfl, Nat.le_refl _, hnr, hr, rfl⟩

/-- One loop iteration on the heap preserves all references below `n` and
computes the pure loop body's value at the bound reference. -/
lemma stepH_spec (o : Operation) (h : List DataFrame) (r n : Nat)
    (hn : n ≤ h.length) (hnr : n ≤ r) (hr : r < h.length) :
    (∀ q, q < n → hGet (stepH o h r).1 q = hGet h q) ∧
    h.length ≤ (stepH o h r).1.length ∧
    (match (stepH o h r).2, applyOperation (hGet h r) o with
     | .ok r2, .ok d =>
         n ≤ r2 ∧ r2 < (stepH o h r).1.length ∧ hGet (stepH o h r).1 r2 = d
     | .error e, .error e2 => e = e2
     | _, _ => False) := by
  obtain ⟨p1, l1, m1⟩ := step1_spec o h r n hn hnr hr
  rcases hs1 : step1 o h r with ⟨h1, res1⟩
  rw [hs1] at p1 l1 m1
  cases res1 with
  | error e =>
    have hsh : stepH o h r = (h1, Except.error e) := by
      unfold stepH
      rw [hs1]
      rfl
    rw [hsh]
    cases ha1 : app1 o (hGet h r) with
    | ok d =>
      rw [ha1] at m1
      exact m1.elim
    | error e2 =>
      rw [ha1] at m1
      have hap : applyOperation (hGet h r) o = .error e2 := by
        unfold applyOperation
        rw [ha1]
      rw [hap]
      exact ⟨p1, l1, m1⟩
  | ok r1 =>
    have hsh : stepH o h r = bindH (step2 o h1 r1) (step3 o) := by
      unfold stepH
      rw [hs1]
      rfl
    rw [hsh]
    cases ha1 : app1 o (hGet h r) with
    | error e2 =>
      rw [ha1] at m1
      exact m1.elim
    | ok d1 =>
      rw [ha1] at m1
      obtain ⟨hnr1, hr1, hv1⟩ := m1
      have hap : applyOperation (hGet h r) o =
          (match app2 o d1 with
           | .error e => .error e
           | .ok d2 => app3 o d2) := by
        unfold applyOperation
        rw [ha1]
      rw [hap]
      obtain ⟨p2, l2, m2⟩ := step2_spec o h1 r1 n (hn.trans l1) hnr1 hr1
      rw [hv1] at m2
      rcases hs2 : step2 o h1 r1 with ⟨h2, res2⟩
      rw [hs2] at p2 l2 m2
      cases res2 with
      | error e =>
        cases ha2 : app2 o d1 with
        | ok d2 =>
          rw [ha2] at m2
          exact m2.elim
        | error e2 =>
          rw [ha2] at m2
          exact ⟨fun q hq => (p2 q hq).trans (p1 q hq), l1.trans l2, m2⟩
      | ok r2 =>
        cases ha2 : app2 o d1 with
        | error e2 =>
          rw [ha2] at m2
          exact m2.elim
        | ok d2 =>
          rw [ha2] at m2
          obtain ⟨hnr2, hr2, hv2⟩ := m2
          obtain ⟨p3, l3, m3⟩ :=
            step3_spec o h2 r2 n ((hn.trans l1).trans l2) hnr2 hr2
          rw [hv2] at m3
          exact ⟨fun q hq => (p3 q hq).trans ((p2 q hq).trans (p1 q hq)),
            (l1.trans l2).trans l3, m3⟩

/-- The operation loop on the heap preserves all references below `n` and
computes the pure loop on the bound value. -/
lemma runOpsH_spec :
    ∀ (ops : List Operation) (h : List DataFrame) (r n : Nat),
    n ≤ h.length → n ≤ r → r < h.length →
    (∀ q, q < n → hGet (runOpsH ops h r).1 q = hGet h q) ∧
    h.length ≤ (runOpsH ops h r).1.length ∧
    (match (runOpsH ops h r).2, runOperations (hGet h r) ops with
     | .ok r2, .ok d => n ≤ r2 ∧ r2 < (runOpsH ops h r).1.length ∧
         hGet (runOpsH ops h r).1 r2 = d
     | .error e, .error e2 => e = e2
     | _, _ => False) := by
  intro ops
  induction ops with
  | nil =>
    intro h r n _ hnr hr
    exact ⟨fun q _ => rfl, Nat.le_refl _, hnr, hr, rfl⟩
  | cons o rest ih =>
    intro h r n hn hnr hr
    obtain ⟨ps, ls, ms⟩ := stepH_spec o h r n hn hnr hr
    unfold runOpsH runOperations
    rcases hst : stepH o h r with ⟨h2, res2⟩
    rw [hst] at ps ls ms
    cases res2 with
    | error e =>
      cases hap : applyOperation (hGet h r) o with
      | ok d =>
        rw [hap] at ms
        exact ms.elim
      | error e2 =>
        rw [hap] at ms
        exact ⟨ps, ls, ms⟩
    | ok r2 =>
      cases hap : applyOperation (hGet h r) o with
      | error e2 =>
        rw [hap] at ms
        exact ms.elim
      | ok d =>
        rw [hap] at ms
        obtain ⟨hnr2, hr2, hv⟩ := ms
        obtain ⟨ps2, ls2, ms2⟩ := ih h2 r2 n (hn.trans ls) hnr2 hr2
        rw [hv] at ms2
        exact ⟨fun q hq => (ps2 q hq).trans (ps q hq), ls.trans ls2, ms2⟩

/-- `aggregate_view` on the heap: every pre-existing object is preserved
(the input object in particular), and the output object holds the value of
the pure `aggregate_view`. -/
lemma aggregateViewH_spec (h : List DataFrame) (r : Nat)
    (view : BenchmarkViewConfig) (n : Nat) (hn : n ≤ h.length)
    (hr : r < h.length) :
    (∀ q, q < n → hGet (aggregateViewH h r view).1 q = hGet h q) ∧
    h.length ≤ (aggregateViewH h r view).1.length ∧
    (match (aggregateViewH h r view).2, aggregateView (hGet h r) view with
     | .ok r2, .ok d => n ≤ r2 ∧ r2 < (aggregateViewH h r view).1.length ∧
         hGet (aggregateViewH h r view).1 r2 = d
     | .error e, .error e2 => e = e2
     | _, _ => False) := by
  obtain ⟨ps, ls, ms⟩ := runOpsH_spec view.operations (h ++ [hGet h r])
    h.length n (by simp; omega) hn (by simp)
  rw [hGet_append_self] at ms
  unfold aggregateViewH aggregateView
  rcases hro : runOpsH view.operations (h ++ [hGet h r]) h.length
    with ⟨h2, res⟩
  rw [hro] at ps ls ms
  have hlapp : h.length ≤ (h ++ [hGet h r]).length := by simp
  cases res with
  | error e =>
    cases hpure : runOperations (hGet h r) view.operations with
    | ok d =>
      rw [hpure] at ms
      exact ms.elim
    | error e2 =>
      rw [hpure] at ms
      refine ⟨?_, hlapp.trans ls, ms⟩
      intro q hq
      exact (ps q hq).trans
        (hGet_append_lt h _ q (Nat.lt_of_lt_of_le hq hn))
  | ok r2 =>
    cases hpure : runOperations (hGet h r) view.operations with
    | error e2 =>
      rw [hpure] at ms
      exact ms.elim
    | ok d =>
      rw [hpure] at ms
      obtain ⟨hnr2, hr2, hv⟩ := ms
      refine ⟨?_, ?_, hnr2, ?_, ?_⟩
      · intro q hq
        rw [hGet_set_ne h2 r2 q _
          (Nat.ne_of_lt (Nat.lt_of_lt_of_le hq hnr2))]
        exact (ps q hq).trans
          (hGet_append_lt h _ q (Nat.lt_of_lt_of_le hq hn))
      · refine (hlapp.trans ls).trans ?_
        simp
      · simpa using hr2
      · rw [hGet_set_self h2 r2 _ hr2, hv]

/-- Membership after a dict assignment. -/
lemma mem_dictInsert {α β : Type} [DecidableEq α] (l : List (α × β))
    (k : α) (v : β) (p : α × β) (hp : p ∈ dictInsert l k v) :
    p = (k, v) ∨ p ∈ l := by
  induction l with
  | nil =>
    rw [dictInsert, List.mem_singleton] at hp
    exact Or.inl hp
  | cons e rest ih =>
    obtain ⟨k1, v1⟩ := e
    unfold dictInsert at hp
    split at hp
    · rcases List.mem_cons.mp hp with rfl | hp
      · exact Or.inl rfl
      · exact Or.inr (List.mem_cons_of_mem _ hp)
    · rcases List.mem_cons.mp hp with rfl | hp
      · exact Or.inr (List.mem_cons_self _ _)
      · rcases ih hp with h | h
        · exact Or.inl h
        · exact Or.inr (List.mem_cons_of_mem _ h)

/-- The view loop: the `orig` object is never mutated; every stored view
reference holds the pure aggregation of the baseline table; and, when no
view is named "orig", the "orig" entry of the result dict is untouched. -/
lemma runViewsH_spec (d : DataFrame)
    (allviews : List BenchmarkViewConfig) :
    ∀ (views : List BenchmarkViewConfig) (h : List DataFrame)
      (acc : List (String × Nat)) (hp : List DataFrame)
      (vs : List (String × Nat)),
    (∀ v ∈ views, v ∈ allviews) →
    0 < h.length → hGet h 0 = d →
    (∀ p ∈ acc, p.2 < h.length) →
    (∀ p ∈ acc, p.1 ≠ "orig" → ∃ view, view ∈ allviews ∧
      p.1 = view.name ∧ ∃ d2, aggregateView d view = .ok d2 ∧
        hGet h p.2 = d2) →
    runViewsH views h 0 acc = .ok (hp, vs) →
    hGet hp 0 = d ∧
    (∀ p ∈ vs, p.1 ≠ "orig" → ∃ view, view ∈ allviews ∧
      p.1 = view.name ∧ ∃ d2, aggregateView d view = .ok d2 ∧
        hGet hp p.2 = d2) ∧
    ((∀ v ∈ views, v.name ≠ "orig") →
      dictLookup vs "orig" = dictLookup acc "orig") := by
  intro views
  induction views with
  | nil =>
    intro h acc hp vs _ _ hd _ hinv hrun
    unfold runViewsH at hrun
    have heq := Except.ok.inj hrun
    injection heq with e1 e2
    subst e1
    subst e2
    exact ⟨hd, hinv, fun _ => rfl⟩
  | cons v rest ih =>
    intro h acc hp vs hall h0 hd haccref hinv hrun
    unfold runViewsH at hrun
    rcases hav : aggregateViewH h 0 v with ⟨h2, res⟩
    rw [hav] at hrun
    cases res with
    | error e => exact Except.noConfusion hrun
    | ok r =>
      obtain ⟨pres, lmon, mtc⟩ :=
        aggregateViewH_spec h 0 v h.length (Nat.le_refl _) h0
      rw [hav] at pres lmon mtc
      cases hpure : aggregateView (hGet h 0) v with
      | error e2 =>
        rw [hpure] at mtc
        exact mtc.elim
      | ok d2 =>
        rw [hpure] at mtc
        obtain ⟨_, hrlt, hval⟩ := mtc
        have h0' : 0 < h2.length := Nat.lt_of_lt_of_le h0 lmon
        have hd' : hGet h2 0 = d := (pres 0 h0).trans hd
        have haccref' : ∀ p ∈ dictInsert acc v.name r, p.2 < h2.length := by
          intro p hpmem
          rcases mem_dictInsert _ _ _ _ hpmem with rfl | hpmem
          · exact hrlt
          · exact Nat.lt_of_lt_of_le (haccref p hpmem) lmon
        have hinv' : ∀ p ∈ dictInsert acc v.name r, p.1 ≠ "orig" →
            ∃ view, view ∈ allviews ∧ p.1 = view.name ∧
              ∃ d3, aggregateView d view = .ok d3 ∧ hGet h2 p.2 = d3 := by
          intro p hpmem hne
          rcases mem_dictInsert _ _ _ _ hpmem with rfl | hpmem
          · refine ⟨v, hall v (List.mem_cons_self v rest), rfl, d2, ?_, hval⟩
            rw [← hd]
            exact hpure
          · obtain ⟨view, hvmem, hname, d3, hagg, hget⟩ := hinv p hpmem hne
            exact ⟨view, hvmem, hname, d3, hagg,
              (pres p.2 (haccref p hpmem)).trans hget⟩
        obtain ⟨c1, c2, c3⟩ := ih h2 (dictInsert acc v.name r) hp vs
          (fun x hx => hall x (List.mem_cons_of_mem v hx)) h0' hd'
          haccref' hinv' hrun
        refine ⟨c1, c2, ?_⟩
        intro hnone
        rw [c3 (fun x hx => hnone x (List.mem_cons_of_mem v hx)),
          dictLookup_insert,
          if_neg (fun hh : ("orig" : String) = v.name =>
            hnone v (List.mem_cons_self v rest) hh.symm)]

/-! # Claim C9 -/

/-- C9, counterexample: the "orig" entry of `generate_view_dataframes` is
NOT unaffected by which views are configured — a view literally named
"orig" overwrites the entry in the result dict. -/
theorem claim9_counterexample :
    (origEntry cfgNoViews [sysA]).isSome
    ∧ (origEntry cfgOrigView [sysA]).isSome
    ∧ origEntry cfgNoViews [sysA] ≠ origEntry cfgOrigView [sysA] := by
  decide

/-- C9, amended: `aggregate_view` never mutates its input object; each view
of `generate_view_dataframes` stores the pure aggregation of the unmodified
`orig` baseline table; and — provided no configured view is itself named
"orig" — the result's "orig" entry still references the untouched baseline
object. -/
theorem claim9_no_mutation :
    (∀ (h : List DataFrame) (r : Nat) (view : BenchmarkViewConfig),
      r < h.length → hGet (aggregateViewH h r view).1 r = hGet h r)
    ∧ (∀ (cfg : BenchmarkConfig) (systems : List SysInfo)
        (hp : List DataFrame) (vs : List (String × Nat)),
      generateViewDataframesH cfg systems = .ok (hp, vs) →
      ∃ d, generateDataframe cfg systems = .ok d ∧ hGet hp 0 = d ∧
        (∀ p ∈ vs, p.1 ≠ "orig" → ∃ view, view ∈ cfg.views ∧
          p.1 = view.name ∧ ∃ d2, aggregateView d view = .ok d2 ∧
            hGet hp p.2 = d2) ∧
        ((∀ v ∈ cfg.views, v.name ≠ "orig") →
          dictLookup vs "orig" = some 0)) := by
  constructor
  · intro h r view hr
    obtain ⟨pres, _, _⟩ :=
      aggregateViewH_spec h r view h.length (Nat.le_refl _) hr
    exact pres r hr
  · intro cfg systems hp vs hrun
    unfold generateViewDataframesH at hrun
    cases hgen : generateDataframe cfg systems with
    | error e =>
      rw [hgen] at hrun
      exact Except.noConfusion hrun
    | ok d =>
      rw [hgen] at hrun
      obtain ⟨c1, c2, c3⟩ := runViewsH_spec d cfg.views cfg.views [d]
        [("orig", 0)] hp vs (fun v hv => hv) (by simp) rfl
        (by
          intro p hp2
          rw [List.mem_singleton] at hp2
          rw [hp2]
          simp)
        (by
          intro p hp2 hne
          rw [List.mem_singleton] at hp2
          rw [hp2] at hne
          exact absurd rfl hne)
        hrun
      refine ⟨d, rfl, c1, c2, fun hnn => ?_⟩
      rw [c3 hnn]
      rfl

/-- C9, witness: a mean view mutates nothing at reference 0, and on the
SST2 scenario with no configured views the result's "orig" entry is the
baseline table itself. -/
theorem claim9_witness :
    hGet ((aggregateViewH [dfM] 0 viewMean).1) 0 = hGet [dfM] 0
    ∧ ∃ d, generateDataframe cfgNoViews [sysA] = .ok d ∧
        hGet [dfSST2] 0 = d ∧
        (∀ p ∈ ([("orig", 0)] : List (String × Nat)), p.1 ≠ "orig" →
          ∃ view, view ∈ cfgNoViews.views ∧ p.1 = view.name ∧
            ∃ d2, aggregateView d view = .ok d2 ∧ hGet [dfSST2] p.2 = d2) ∧
        ((∀ v ∈ cfgNoViews.views, v.name ≠ "orig") →
          dictLookup ([("orig", 0)] : List (String × Nat)) "orig" = some 0) :=
  ⟨claim9_no_mutation.1 [dfM] 0 viewMean (by decide),
   claim9_no_mutation.2 cfgNoViews [sysA] [dfSST2] [("orig", 0)] (by decide)⟩

end Spec2Proof
